import Mathlib

set_option maxRecDepth 100000

/-! MediLoop authentication core — shallow embedding and verification.

This file embeds the authentication/session subsystem of the MediLoop server
(`src/server/index.mjs`, which contains two variants of the server concatenated:
a SQLite variant, lines 1-530, and a PostgreSQL variant, lines 531-1502) and
settles the frozen claims about it.

Conventions:
* Bytes are `Nat` values < 256; byte strings are `List Nat`.
* Machine 32-bit arithmetic is `Nat` arithmetic reduced `% 2^32`.
* External libraries (node `crypto` SHA-256, otplib's HOTP/TOTP including
  HMAC-SHA1 and base32) are implemented from their RFCs so that the embedding
  is executable; AES-256-GCM and argon2 are modelled (see the doc comments at
  their definitions).
* Randomness (fresh ivs, secrets, session tokens, row ids) and clock reads
  are explicit parameters of the embedded handlers.
-/

/-! ## 32-bit words and byte lists -/

/-- Reduce to a 32-bit word. -/
def u32 (n : Nat) : Nat := n % 4294967296

/-- Rotate a 32-bit word left by `k` (0 < k < 32). -/
def rotl32 (k n : Nat) : Nat := ((n <<< k) % 4294967296) ||| (n >>> (32 - k))

/-- Rotate a 32-bit word right by `k` (0 < k < 32). -/
def rotr32 (k n : Nat) : Nat := (n >>> k) ||| ((n <<< (32 - k)) % 4294967296)

/-- `k` big-endian bytes of `n`. -/
def beBytes : Nat → Nat → List Nat
  | 0, _ => []
  | k + 1, n => beBytes k (n / 256) ++ [n % 256]

/-- Word `i` of a packed 32-bit word vector (word 0 in the lowest 32 bits).
Packing schedules and constants into a single natural number keeps all hash
computation on the kernel's accelerated bignum arithmetic. -/
def wAt (W i : Nat) : Nat := (W >>> (32 * i)) &&& 4294967295

/-- Big-endian packing of a byte list into one natural number. -/
def packBE (l : List Nat) : Nat := l.foldl (fun a b => a * 256 + b) 0

/-- Repack the low `k` 32-bit words of `P` in reverse word order, so the most
significant of the `k` words lands in the lowest 32 bits of the result. -/
def revWords : Nat → Nat → Nat
  | 0, _ => 0
  | k + 1, P => ((P &&& 4294967295) <<< (32 * k)) + revWords k (P >>> 32)

/-- Group a 64-byte block into 16 big-endian 32-bit words, packed so that the
first word of the block is word 0 of the result. -/
def blockWords (l : List Nat) : Nat := revWords 16 (packBE l)

/-- Split a list into chunks of 64, fuel-driven. -/
def chunks64F : Nat → List Nat → List (List Nat)
  | 0, _ => []
  | n + 1, l => if l.isEmpty then [] else l.take 64 :: chunks64F n (l.drop 64)

/-- Merkle-Damgård padding shared by SHA-1 and SHA-256: append `0x80`, zero
pad to 56 mod 64, then the bit length as 8 big-endian bytes. -/
def mdPad (msg : List Nat) : List Nat :=
  let L := msg.length
  let k := (64 + 56 - ((L + 1) % 64)) % 64
  msg ++ [128] ++ List.replicate k 0 ++ beBytes 8 (8 * L)

/-- Padded message as a list of 64-byte blocks. -/
def mdBlocks (msg : List Nat) : List (List Nat) :=
  let p := mdPad msg
  chunks64F (p.length / 64 + 1) p

/-! ## SHA-1 (RFC 3174), needed for HOTP/TOTP (RFC 4226/6238's HMAC-SHA1) -/

/-- SHA-1 round function. -/
def sha1F (i b c d : Nat) : Nat :=
  if i < 20 then (b &&& c) ||| ((4294967295 ^^^ b) &&& d)
  else if i < 40 then b ^^^ c ^^^ d
  else if i < 60 then (b &&& c) ||| (b &&& d) ||| (c &&& d)
  else b ^^^ c ^^^ d

/-- SHA-1 round constants. -/
def sha1K (i : Nat) : Nat :=
  if i < 20 then 1518500249
  else if i < 40 then 1859775393
  else if i < 60 then 2400959708
  else 3395469782

/-- Extend the 16 message words to 80 schedule words (packed; `i` is the
index of the next word to fill). -/
def sha1Extend : Nat → Nat → Nat → Nat
  | 0, _, W => W
  | n + 1, i, W =>
    sha1Extend n (i + 1) (W + ((rotl32 1
      (wAt W (i - 3) ^^^ wAt W (i - 8) ^^^ wAt W (i - 14) ^^^ wAt W (i - 16))) <<< (32 * i)))

/-- SHA-1 compression rounds. -/
def sha1Rounds : Nat → Nat → Nat → Nat × Nat × Nat × Nat × Nat →
    Nat × Nat × Nat × Nat × Nat
  | 0, _, _, st => st
  | n + 1, i, ws, (a, b, c, d, e) =>
    let t := u32 (rotl32 5 a + sha1F i b c d + e + sha1K i + wAt ws i)
    sha1Rounds n (i + 1) ws (t, a, rotl32 30 b, c, d)

/-- One SHA-1 block compression. -/
def sha1Block (h : Nat × Nat × Nat × Nat × Nat) (block : List Nat) :
    Nat × Nat × Nat × Nat × Nat :=
  let ws := sha1Extend 64 16 (blockWords block)
  let (h0, h1, h2, h3, h4) := h
  let (a, b, c, d, e) := sha1Rounds 80 0 ws (h0, h1, h2, h3, h4)
  (u32 (h0 + a), u32 (h1 + b), u32 (h2 + c), u32 (h3 + d), u32 (h4 + e))

/-- SHA-1 of a byte list, as 20 bytes. -/
def sha1 (msg : List Nat) : List Nat :=
  let (h0, h1, h2, h3, h4) :=
    (mdBlocks msg).foldl sha1Block
      (1732584193, 4023233417, 2562383102, 271733878, 3285377520)
  beBytes 4 h0 ++ beBytes 4 h1 ++ beBytes 4 h2 ++ beBytes 4 h3 ++ beBytes 4 h4

/-! ## SHA-256 (FIPS 180-4), needed for the session token hash
(`const hash = (t) => crypto.createHash('sha256')...digest('hex')`,
`src/server/index.mjs` lines 176 and 651). -/

/-- The 64 SHA-256 round constants (FIPS 180-4 §4.2.2), packed 32 bits per
word with `K_0` in the lowest 32 bits: `wAt sha256K i` is `K_i`. -/
def sha256K : Nat :=
  25051139735836467913601071899189108501681633092613316132753366958947502841281110980347811086624969305314199562795868290539880502533646505489797110349007385020507326982043050618112420254613810441709594605123090411975756494285771699200369901479195251226368983824020564277645963860728452821576845901498668417244438721537663670541944820957180957595559282976806173113161068298822071065329290006052849814285001949914564097058408480133985233335799884203712730341384999677089997083749077591931498939520449886954646413138343858395935213418018409268340744776361518554939863400075967197509182087778881547827184266701615699472280

/-- SHA-256 message-schedule sigma functions. -/
def sha256s0 (x : Nat) : Nat := rotr32 7 x ^^^ rotr32 18 x ^^^ (x >>> 3)

/-- SHA-256 message-schedule sigma functions. -/
def sha256s1 (x : Nat) : Nat := rotr32 17 x ^^^ rotr32 19 x ^^^ (x >>> 10)

/-- Extend the 16 message words to 64 schedule words (packed; `i` is the
index of the next word to fill). -/
def sha256Extend : Nat → Nat → Nat → Nat
  | 0, _, W => W
  | n + 1, i, W =>
    sha256Extend n (i + 1) (W + ((u32
      (wAt W (i - 16) + sha256s0 (wAt W (i - 15)) +
       wAt W (i - 7) + sha256s1 (wAt W (i - 2)))) <<< (32 * i)))

/-- SHA-256 compression rounds over an 8-word state. -/
def sha256Rounds : Nat → Nat → Nat →
    Nat × Nat × Nat × Nat × Nat × Nat × Nat × Nat →
    Nat × Nat × Nat × Nat × Nat × Nat × Nat × Nat
  | 0, _, _, st => st
  | n + 1, i, ws, (a, b, c, d, e, f, g, h) =>
    let S1 := rotr32 6 e ^^^ rotr32 11 e ^^^ rotr32 25 e
    let ch := (e &&& f) ^^^ ((4294967295 ^^^ e) &&& g)
    let t1 := u32 (h + S1 + ch + wAt sha256K i + wAt ws i)
    let S0 := rotr32 2 a ^^^ rotr32 13 a ^^^ rotr32 22 a
    let mj := (a &&& b) ^^^ (a &&& c) ^^^ (b &&& c)
    let t2 := u32 (S0 + mj)
    sha256Rounds n (i + 1) ws (u32 (t1 + t2), a, b, c, u32 (d + t1), e, f, g)

/-- One SHA-256 block compression. -/
def sha256Block (h : Nat × Nat × Nat × Nat × Nat × Nat × Nat × Nat)
    (block : List Nat) : Nat × Nat × Nat × Nat × Nat × Nat × Nat × Nat :=
  let ws := sha256Extend 48 16 (blockWords block)
  let (h0, h1, h2, h3, h4, h5, h6, h7) := h
  let (a, b, c, d, e, f, g, hh) := sha256Rounds 64 0 ws (h0, h1, h2, h3, h4, h5, h6, h7)
  (u32 (h0 + a), u32 (h1 + b), u32 (h2 + c), u32 (h3 + d),
   u32 (h4 + e), u32 (h5 + f), u32 (h6 + g), u32 (h7 + hh))

/-- SHA-256 of a byte list, as 32 bytes. -/
def sha256 (msg : List Nat) : List Nat :=
  let (h0, h1, h2, h3, h4, h5, h6, h7) := (mdBlocks msg).foldl sha256Block
    (1779033703, 3144134277, 1013904242, 2773480762,
     1359893119, 2600822924, 528734635, 1541459225)
  beBytes 4 h0 ++ beBytes 4 h1 ++ beBytes 4 h2 ++ beBytes 4 h3 ++
  beBytes 4 h4 ++ beBytes 4 h5 ++ beBytes 4 h6 ++ beBytes 4 h7

/-! ## HMAC-SHA1 (RFC 2104) -/

/-- HMAC-SHA1 with a key of at most 64 bytes (HOTP keys are 20 bytes here). -/
def hmacSha1 (key msg : List Nat) : List Nat :=
  let key := if key.length > 64 then sha1 key else key
  let k64 := key ++ List.replicate (64 - key.length) 0
  let ipad := k64.map (fun b => b ^^^ 54)
  let opad := k64.map (fun b => b ^^^ 92)
  sha1 (opad ++ sha1 (ipad ++ msg))

/-! ## Hex and ASCII helpers -/

/-- One lowercase hex digit. -/
def hexDigit (n : Nat) : Char :=
  if n < 10 then Char.ofNat (48 + n) else Char.ofNat (87 + n)

/-- Lowercase hex of a byte list. -/
def hexOfBytes (l : List Nat) : String :=
  String.mk (l.foldr (fun b acc => hexDigit (b / 16) :: hexDigit (b % 16) :: acc) [])

/-- Bytes of an ASCII string (this coincides with UTF-8 on ASCII;
all strings the server hashes or enciphers — base32 TOTP secrets,
base64url session tokens — are ASCII). -/
def strBytes (s : String) : List Nat := s.toList.map Char.toNat

/-- `const hash = (t) => crypto.createHash('sha256').update(t).digest('hex')`
(`src/server/index.mjs` lines 176, 651): hex-encoded SHA-256 of the token. -/
def hashHex (t : String) : String := hexOfBytes (sha256 (strBytes t))

/-! ## Base32 (RFC 4648), used by otplib's authenticator to decode the shared
secret (`authenticator.generateSecret()` returns a base32 string and
`authenticator.verify` decodes it before HMAC). -/

/-- Value of one base32 character (A-Z, 2-7). -/
def b32Val (c : Char) : Option Nat :=
  if 'A' ≤ c ∧ c ≤ 'Z' then some (c.toNat - 65)
  else if '2' ≤ c ∧ c ≤ '7' then some (c.toNat - 50 + 26)
  else none

/-- Base32 bit-accumulator decode; trailing bits (< 8) are discarded. -/
def b32Fold : List Char → Nat → Nat → Option (List Nat)
  | [], _, _ => some []
  | c :: cs, acc, bits =>
    match b32Val c with
    | none => none
    | some v =>
      let acc' := acc * 32 + v
      let bits' := bits + 5
      if bits' ≥ 8 then
        (fun rest => acc' / 2 ^ (bits' - 8) :: rest) <$>
          b32Fold cs (acc' % 2 ^ (bits' - 8)) (bits' - 8)
      else
        b32Fold cs acc' bits'

/-- Decode a base32 secret string to key bytes. -/
def base32Decode (s : String) : Option (List Nat) := b32Fold s.toList 0 0

/-! ## HOTP / TOTP (RFC 4226 / RFC 6238), as implemented by otplib v12
(external dependency of the server; implemented here from the RFCs that
otplib follows, so that verification is executable). -/

/-- RFC 4226 HOTP: HMAC-SHA1 over the 8-byte big-endian counter, dynamic
truncation, reduced to `digits` decimal digits and left-padded with zeros. -/
def hotpToken (key : List Nat) (counter : Nat) (digits : Nat) : String :=
  let mac := hmacSha1 key (beBytes 8 counter)
  let off := mac.getD 19 0 &&& 15
  let bin := ((mac.getD off 0 &&& 127) <<< 24) ||| ((mac.getD (off + 1) 0) <<< 16) |||
    ((mac.getD (off + 2) 0) <<< 8) ||| mac.getD (off + 3) 0
  let code := toString (bin % 10 ^ digits)
  String.mk (List.replicate (digits - code.length) '0') ++ code

/-- otplib `totpCounter(epoch, step)`: the 30-second time-step index of a
millisecond epoch (`Math.floor(epoch / step / 1000)`). -/
def totpCounter (epochMs step : Nat) : Nat := epochMs / (step * 1000)

/-- otplib `totpCheckWithWindow`: the token is accepted iff it equals the HOTP
value at some step within `past` steps before or `future` steps after the
current step (earlier steps only when the counter is large enough; real
epochs are far above the window). -/
def totpCheckWithWindow (key : List Nat) (token : String) (counter past future digits : Nat) :
    Bool :=
  (List.range (past + 1)).any
    (fun i => decide (i ≤ counter) && token == hotpToken key (counter - i) digits) ||
  (List.range' 1 future).any (fun i => token == hotpToken key (counter + i) digits)

/-- `authenticator.options = { step: 30, window: 1, digits: 6 }`
(`src/server/index.mjs` lines 22 and 653). -/
def AUTH_STEP : Nat := 30

/-- The configured verification window (± steps), see `AUTH_STEP`. -/
def AUTH_WINDOW : Nat := 1

/-- The configured token length, see `AUTH_STEP`. -/
def AUTH_DIGITS : Nat := 6

/-- otplib `authenticator.check(token, secret)` with the configured options:
decode the base32 secret and run the windowed TOTP check at the current
millisecond epoch (an invalid base32 secret never verifies). -/
def authenticatorCheck (token secret : String) (epochMs : Nat) : Bool :=
  match base32Decode secret with
  | none => false
  | some key =>
    totpCheckWithWindow key token (totpCounter epochMs AUTH_STEP)
      AUTH_WINDOW AUTH_WINDOW AUTH_DIGITS

/-- The argument object of `authenticator.verify({ token, secret, window: 2 })`
as built at the four verify call sites (`src/server/index.mjs` lines 252, 272,
1066, 1090). The server passes a `window` field in this object. -/
structure VerifyOpts where
  token : String
  secret : String
  window : Nat

/-- otplib v12 `Authenticator.verify(opts)` (external dependency): it forwards
only `opts.token` and `opts.secret` to `check`, which runs with the instance
options (`authenticator.options`, window 1). The extra `window` field the
server places in the call object is not read by otplib v12's `verify`, so the
effective verification window is ±1 step, not ±2. -/
def authenticatorVerify (opts : VerifyOpts) (epochMs : Nat) : Bool :=
  authenticatorCheck opts.token opts.secret epochMs

/-! ## Base64 (RFC 4648), the transport encoding of cipher blobs
(`Buffer.concat([iv, tag, enc]).toString('base64')` and
`Buffer.from(payload, 'base64')`, `src/server/index.mjs` lines 33/36, 639/642). -/

/-- The base64 character for a 6-bit value. -/
def b64Char (n : Nat) : Char :=
  if n < 26 then Char.ofNat (65 + n)
  else if n < 52 then Char.ofNat (97 + (n - 26))
  else if n < 62 then Char.ofNat (48 + (n - 52))
  else if n = 62 then '+' else '/'

/-- Value of one base64 character. -/
def b64Val (c : Char) : Option Nat :=
  if 'A' ≤ c ∧ c ≤ 'Z' then some (c.toNat - 65)
  else if 'a' ≤ c ∧ c ≤ 'z' then some (c.toNat - 97 + 26)
  else if '0' ≤ c ∧ c ≤ '9' then some (c.toNat - 48 + 52)
  else if c = '+' then some 62
  else if c = '/' then some 63
  else none

/-- Base64-encode a byte list (with `=` padding), 3 bytes per group. -/
def b64Encode : List Nat → List Char
  | [] => []
  | [a] => [b64Char (a / 4), b64Char (a % 4 * 16), '=', '=']
  | [a, b] => [b64Char (a / 4), b64Char (a % 4 * 16 + b / 16), b64Char (b % 16 * 4), '=']
  | a :: b :: c :: rest =>
    b64Char (a / 4) :: b64Char (a % 4 * 16 + b / 16) :: b64Char (b % 16 * 4 + c / 64) ::
      b64Char (c % 64) :: b64Encode rest

/-- Base64-decode, 4 characters per group, honouring `=` padding (padding is
only significant in a final group; a stray `=` elsewhere fails through
`b64Val`). -/
def b64Decode : List Char → Option (List Nat)
  | c1 :: c2 :: c3 :: c4 :: rest =>
    if rest = [] ∧ c3 = '=' ∧ c4 = '=' then do
      let v1 ← b64Val c1
      let v2 ← b64Val c2
      some [v1 * 4 + v2 / 16]
    else if rest = [] ∧ c4 = '=' then do
      let v1 ← b64Val c1
      let v2 ← b64Val c2
      let v3 ← b64Val c3
      some [v1 * 4 + v2 / 16, v2 % 16 * 16 + v3 / 4]
    else do
      let v1 ← b64Val c1
      let v2 ← b64Val c2
      let v3 ← b64Val c3
      let v4 ← b64Val c4
      let tl ← b64Decode rest
      some ((v1 * 4 + v2 / 16) :: (v2 % 16 * 16 + v3 / 4) :: (v3 % 4 * 64 + v4) :: tl)
  | [] => some []
  | _ => none

/-- All entries of a byte list are bytes. -/
def bytesOk (l : List Nat) : Prop := ∀ b ∈ l, b < 256

instance (l : List Nat) : Decidable (bytesOk l) := by
  unfold bytesOk; infer_instance

/-! ## The secret cipher (spec §4.1)

The server's `encrypt`/`decrypt` (`src/server/index.mjs` lines 28-44 and
634-650) call node's `crypto` AES-256-GCM, an external library. Modelled from
the spec: an authenticated cipher (AEAD) is any pair `seal`/`unseal` such that
unsealing an honestly sealed triple returns the plaintext; perfect integrity
(the tag check) is the separate predicate `AEADIntegrity`. What the repository
itself contributes — the blob layout `iv ‖ tag ‖ ciphertext`, the 12-byte iv,
the 16-byte tag, base64 transport, and the parsing offsets 0/12/28 — is
embedded exactly and verified below. -/

structure AEADModel where
  sealB : List Nat → List Nat → List Nat × List Nat
  openB : List Nat → List Nat → List Nat → Option (List Nat)
  tag_len : ∀ iv m, (sealB iv m).2.length = 16
  ct_len : ∀ iv m, (sealB iv m).1.length = m.length
  tag_bytes : ∀ iv m, bytesOk (sealB iv m).2
  ct_bytes : ∀ iv m, bytesOk (sealB iv m).1
  open_sealB : ∀ iv m, bytesOk m → openB iv (sealB iv m).2 (sealB iv m).1 = some m

/-- Perfect integrity (idealisation of the GCM authentication tag): a triple
that was not honestly sealed never unseals. -/
def AEADIntegrity (A : AEADModel) : Prop :=
  ∀ iv tag ct, (∀ m, A.sealB iv m ≠ (ct, tag)) → A.openB iv tag ct = none

/-- `IV_LEN = 12` (`src/server/index.mjs` lines 27, 633). -/
def IV_LEN : Nat := 12

/-- `encrypt` blob bytes: `Buffer.concat([iv, tag, enc])`
(`src/server/index.mjs` lines 28-34, 634-640); the iv is the 12 fresh random
bytes passed in by the caller. -/
def encryptBytes (A : AEADModel) (iv m : List Nat) : List Nat :=
  iv ++ (A.sealB iv m).2 ++ (A.sealB iv m).1

/-- `decrypt` blob parsing: `iv = buf.subarray(0, 12)`,
`tag = buf.subarray(12, 28)`, `enc = buf.subarray(28)` then the GCM open with
the authentication-tag check (`src/server/index.mjs` lines 35-44, 641-650);
`none` models the thrown `DecryptionError`. -/
def decryptBytes (A : AEADModel) (b : List Nat) : Option (List Nat) :=
  A.openB (b.take IV_LEN) ((b.drop IV_LEN).take 16) (b.drop 28)

/-- Full `encrypt`: utf8 bytes (ASCII here), seal, base64
(`src/server/index.mjs` lines 28-34, 634-640). -/
def encryptStr (A : AEADModel) (iv : List Nat) (text : String) : String :=
  String.mk (b64Encode (encryptBytes A iv (strBytes text)))

/-- Full `decrypt`: base64 decode, parse, open
(`src/server/index.mjs` lines 35-44, 641-650). -/
def decryptStr (A : AEADModel) (payload : String) : Option String :=
  match b64Decode payload.toList with
  | none => none
  | some b =>
    match decryptBytes A b with
    | none => none
    | some m => some (String.mk (m.map Char.ofNat))

/-- Flip bit `i` of a byte list (bit `i % 8` of byte `i / 8`). -/
def flipBit (i : Nat) (b : List Nat) : List Nat :=
  b.set (i / 8) (b.getD (i / 8) 0 ^^^ 2 ^ (i % 8))

/-! ### A concrete AEAD instance

Executable stand-in used to discharge witnesses: the "ciphertext" is the
plaintext reduced mod 256 and the tag is a 16-byte keyed-less checksum of
iv and plaintext. It provably satisfies both the `AEADModel` contract and
`AEADIntegrity` (confidentiality is not modelled; no claim is about it). -/

/-- Checksum over `iv ‖ 255 ‖ m` (depends only on the bytes mod 256). -/
def toyMac (iv m : List Nat) : List Nat :=
  beBytes 16 ((iv ++ 255 :: m).foldl (fun a b => (a * 257 + b % 256 + 1) % 2 ^ 128) 1)

/-- The stand-in seal: plaintext mod 256 plus `toyMac` tag. -/
def toySeal (iv m : List Nat) : List Nat × List Nat := (m.map (· % 256), toyMac iv m)

/-- The stand-in open: accept iff the checksum matches. -/
def toyUnseal (iv tag ct : List Nat) : Option (List Nat) :=
  if ct.all (fun b => b < 256) && toyMac iv ct == tag then some ct else none

/-! ## JavaScript string primitives used by the routes -/

/-- JavaScript's `\s` on the ASCII range (the server compares emails and codes
that are ASCII; Unicode spaces are not modelled). -/
def jsSpace (c : Char) : Bool :=
  c = ' ' ∨ c = Char.ofNat 9 ∨ c = Char.ofNat 10 ∨ c = Char.ofNat 11 ∨
  c = Char.ofNat 12 ∨ c = Char.ofNat 13

/-- `String.prototype.trim()`. -/
def jsTrim (s : String) : String :=
  String.mk (((s.toList.dropWhile jsSpace).reverse.dropWhile jsSpace).reverse)

/-- `String.prototype.toLowerCase()` on the ASCII range. -/
def jsLower (s : String) : String :=
  String.mk (s.toList.map (fun c =>
    if 'A' ≤ c ∧ c ≤ 'Z' then Char.ofNat (c.toNat + 32) else c))

/-- `String(req.body?.email || '').trim().toLowerCase()` — the email
normalisation every auth route performs first. -/
def normEmail (s : String) : String := jsLower (jsTrim s)

/-- `String(req.body?.code || '').replace(/\D/g, '')` — the code sanitisation
at the four TOTP call sites (`src/server/index.mjs` lines 248, 267, 1056,
1081); `\D` is exactly the non-digits `[^0-9]`. -/
def stripNonDigits (s : String) : String :=
  String.mk (s.toList.filter (fun c => '0' ≤ c ∧ c ≤ '9'))

/-- The email test `/^[^@\s]+@[^@\s]+\.[^@\s]+$/` (`src/server/index.mjs`
lines 221, 304, 981, 1015, 1175). Since `[^@\s]` excludes `@`, the regex
matches iff: the part before the first `@` is nonempty with no `@`/space;
the part after it is nonempty, has no `@`/space, and contains a `.` that is
neither its first nor its last character. -/
def emailOk (s : String) : Bool :=
  let cs := s.toList
  match cs.findIdx? (· = '@') with
  | none => false
  | some i =>
    let loc := cs.take i
    let rest := cs.drop (i + 1)
    decide (0 < loc.length) && loc.all (fun c => !(jsSpace c)) &&
    rest.all (fun c => c ≠ '@' && !(jsSpace c)) &&
    (List.range rest.length).any
      (fun j => decide (rest.getD j ' ' = '.' ∧ 0 < j ∧ j + 1 < rest.length))

/-! ## Password hashing (spec §4.2)

Modelled from the spec: argon2 (`argon2.hash` / `argon2.verify`, an external
library) is a memory-hard salted hash; each `hash` call draws a fresh salt,
and `verify(hash(p), q)` holds iff `p = q` (collision-freeness idealised).
The salt drawn by a `hash` call is an explicit parameter of the handlers. -/

structure Argon2Hash where
  salt : Nat
  password : String
deriving DecidableEq, Repr

/-- `argon2.hash(password)` with the fresh salt made explicit. -/
def argon2Hash (salt : Nat) (password : String) : Argon2Hash := ⟨salt, password⟩

/-- `argon2.verify(hash, password)`. -/
def argon2Verify (h : Argon2Hash) (password : String) : Bool := h.password == password

/-! ## Data model (spec §3) — the `users` and `sessions` tables -/

/-- A `users` row (pg variant: columns `id, email, password_hash,
totp_enabled, totp_secret_encrypted, totp_temp_secret_encrypted, role,
specialty, clinic_id, created_at`). -/
structure User where
  id : Nat
  email : String
  passwordHash : Option Argon2Hash
  totpEnabled : Bool
  totpSecretEncrypted : Option String
  totpTempSecretEncrypted : Option String
  role : Option String
  specialty : Option String
  clinicId : Option Nat
  createdAt : Nat
deriving DecidableEq, Repr

/-- A `sessions` row (`user_id, token_hash, expires_at, created_at`). -/
structure Session where
  userId : Nat
  tokenHash : String
  expiresAt : Nat
  createdAt : Nat
deriving DecidableEq, Repr

/-- The store (the two tables the auth core touches). -/
structure DB where
  users : List User
  sessions : List Session
deriving DecidableEq, Repr

/-- `select * from users where email=$1` — first matching row. -/
def getUserByEmail (db : DB) (email : String) : Option User :=
  db.users.find? (fun u => u.email == email)

/-- `select * from users where id=$1` — first matching row. -/
def getUserById (db : DB) (id : Nat) : Option User :=
  db.users.find? (fun u => u.id == id)

/-- `update users set ... where id=$1`. -/
def updateUser (db : DB) (id : Nat) (f : User → User) : DB :=
  { db with users := db.users.map (fun u => if u.id = id then f u else u) }

/-- `SESSION_TTL_S = 60 * 60 * 24 * 7` (`src/server/index.mjs` lines 18, 540). -/
def SESSION_TTL_S : Nat := 604800

/-- `DEFAULT_ROLE = 'doctor'` (line 656). -/
def DEFAULT_ROLE : String := "doctor"

/-- `ROLES = ['admin', 'doctor', 'receptionist']` (line 657). -/
def ROLES : List String := ["admin", "doctor", "receptionist"]

/-- `DEFAULT_SPECIALTY = 'general_physician'` (line 675). -/
def DEFAULT_SPECIALTY : String := "general_physician"

/-- `SPECIALTY_IDS = Object.keys(SPECIALTY_MODULES)` (line 870): the four
module ids declared in `SPECIALTY_MODULES` (lines 676-868). -/
def SPECIALTY_IDS : List String :=
  ["general_physician", "ophthalmology", "dermatology", "physiotherapy"]

/-- `createUser(email, specialty, role, clinicId)` (lines 943-947): inserts a
row with no password hash and all TOTP state clear. -/
def createUserRow (id : Nat) (email specialty role : String) (clinicId : Option Nat)
    (now : Nat) : User :=
  { id := id, email := email, passwordHash := none, totpEnabled := false,
    totpSecretEncrypted := none, totpTempSecretEncrypted := none,
    role := some role, specialty := some specialty, clinicId := clinicId,
    createdAt := now }

/-- The sqlite `createUser` (`INSERT INTO users (email, created_at)`,
line 114): no role, no specialty, nothing else set. -/
def createUserRowSqlite (id : Nat) (email : String) (now : Nat) : User :=
  { id := id, email := email, passwordHash := none, totpEnabled := false,
    totpSecretEncrypted := none, totpTempSecretEncrypted := none,
    role := none, specialty := none, clinicId := none, createdAt := now }

/-- `issueSession` row insert (`insert into sessions (user_id, token_hash,
expires_at, created_at) values ($1, hash(token), now + TTL, now)`, lines
177-187 and 948-963); the fresh random token is an explicit parameter.
(The asynchronous-ordering aspect of the pg variant is modelled separately
for the temporal claim; here the row is the one the insert writes.) -/
def insertSession (db : DB) (userId : Nat) (token : String) (now : Nat) : DB :=
  { db with sessions := db.sessions ++
      [{ userId := userId, tokenHash := hashHex token,
         expiresAt := now + SESSION_TTL_S, createdAt := now }] }

/-- The secret cipher as the handlers see it: `encrypt` with its fresh random
iv made explicit, and `decrypt` returning `none` for a thrown
`DecryptionError`. Handlers are parametric in it; the concrete instance
built from the modelled AEAD below (`pipeCipher`) instantiates it. -/
structure SecretCipher where
  enc : List Nat → String → String
  dec : String → Option String

/-- The cipher actually assembled by the server source: AES-256-GCM modelled
by an `AEADModel`, blob layout and base64 as embedded above. -/
def pipeCipher (A : AEADModel) : SecretCipher where
  enc := fun iv text => encryptStr A iv text
  dec := fun payload => decryptStr A payload

/-! ## Route handlers — PostgreSQL variant (`src/server/index.mjs` 531-1502)

Each handler takes the request fields, the store, and the nondeterministic
inputs (fresh ids, salts, ivs, tokens, the clock) explicitly, and returns the
JSON response together with the updated store. -/

/-- Responses of `POST /api/auth/register`. The handler's only outcomes are
400 `invalid_input` and `{ ok: true, role }` (lines 974-994): the source has
no 409 `account_exists` branch. -/
inductive RegisterRes where
  | invalidInput
  | ok (role : String)
deriving DecidableEq, Repr

/-- `POST /api/auth/register` (pg variant, lines 974-994): normalise the
email, coerce an unknown specialty to `DEFAULT_SPECIALTY`, validate email and
password length, create the user if absent (else re-point its specialty),
then overwrite `password_hash` with a fresh argon2 hash. -/
def registerPg (db : DB) (emailRaw passwordRaw specialtyRaw : String)
    (freshId salt now : Nat) : RegisterRes × DB :=
  let email := normEmail emailRaw
  let password := passwordRaw
  let requestedSpecialty := jsTrim specialtyRaw
  let specialty :=
    if SPECIALTY_IDS.contains requestedSpecialty then requestedSpecialty
    else DEFAULT_SPECIALTY
  if ¬ (emailOk email ∧ password.length ≥ 6) then (.invalidInput, db)
  else
    match getUserByEmail db email with
    | none =>
      let u := createUserRow freshId email specialty DEFAULT_ROLE none now
      let db1 : DB := { db with users := db.users ++ [u] }
      let db2 := updateUser db1 freshId
        (fun x => { x with passwordHash := some (argon2Hash salt password) })
      (.ok (u.role.getD DEFAULT_ROLE), db2)
    | some u =>
      let db1 :=
        if u.specialty ≠ some specialty then
          updateUser db u.id (fun x => { x with specialty := some specialty })
        else db
      let db2 := updateUser db1 u.id
        (fun x => { x with passwordHash := some (argon2Hash salt password) })
      (.ok (u.role.getD DEFAULT_ROLE), db2)

/-- Responses of `POST /api/auth/login-password`. -/
inductive LoginPwRes where
  | invalidCredentials
  | ok (role : String)
deriving DecidableEq, Repr

/-- The machine-readable error code of a password-login response. -/
def LoginPwRes.errCode : LoginPwRes → Option String
  | .invalidCredentials => some "invalid_credentials"
  | .ok _ => none

/-- `POST /api/auth/login-password` (pg variant, lines 996-1008): both the
missing-user and wrong-password failures answer 400 `invalid_credentials`. -/
def loginPasswordPg (db : DB) (emailRaw passwordRaw : String) (token : String)
    (now : Nat) : LoginPwRes × DB :=
  let email := normEmail emailRaw
  match getUserByEmail db email with
  | none => (.invalidCredentials, db)
  | some user =>
    match user.passwordHash with
    | none => (.invalidCredentials, db)
    | some h =>
      if argon2Verify h passwordRaw then
        (.ok (user.role.getD DEFAULT_ROLE), insertSession db user.id token now)
      else (.invalidCredentials, db)

/-- Responses of `POST /api/auth/start`. -/
inductive StartRes where
  | invalidEmail
  | codeMode
  | enroll (secret : String)
deriving DecidableEq, Repr

/-- `POST /api/auth/start` (pg variant, lines 1010-1050): create the user on
first touch; answer `{mode:'code'}` when enrolled and not forcing; on `force`
clear all TOTP state first; reuse a decryptable pending temp secret, else
store a freshly generated one; reply with the enrollment secret. (The
`otpauth://` URI built by otplib's `keyuri` carries the same secret; it is
not modelled separately.) -/
def startPg (C : SecretCipher) (db : DB) (emailRaw : String) (force : Bool)
    (freshSecret : String) (iv : List Nat) (freshId now : Nat) : StartRes × DB :=
  let email := normEmail emailRaw
  if ¬ emailOk email then (.invalidEmail, db)
  else
    let found := getUserByEmail db email
    let user := found.getD (createUserRow freshId email DEFAULT_SPECIALTY DEFAULT_ROLE none now)
    let db0 := match found with
      | some _ => db
      | none => { db with users := db.users ++ [user] }
    if user.totpEnabled ∧ ¬ force then (.codeMode, db0)
    else
      let user1 := if force then
          { user with
              totpEnabled := false
              totpSecretEncrypted := none
              totpTempSecretEncrypted := none }
        else user
      let db1 := if force then
          updateUser db0 user.id (fun x =>
            { x with
                totpEnabled := false
                totpSecretEncrypted := none
                totpTempSecretEncrypted := none })
        else db0
      match user1.totpTempSecretEncrypted with
      | some blob =>
        (match C.dec blob with
         | some secret => (.enroll secret, db1)
         | none =>
           let db2 := updateUser db1 user1.id
             (fun x => { x with totpTempSecretEncrypted := none })
           let db3 := updateUser db2 user1.id
             (fun x => { x with totpTempSecretEncrypted := some (C.enc iv freshSecret) })
           (.enroll freshSecret, db3))
      | none =>
        let db2 := updateUser db1 user1.id
          (fun x => { x with totpTempSecretEncrypted := some (C.enc iv freshSecret) })
        (.enroll freshSecret, db2)

/-- Responses of the two TOTP endpoints (`verify-enroll` and `login`). -/
inductive TotpRes where
  | enrollRequired
  | invalidCode
  | ok (role : String)
deriving DecidableEq, Repr

/-- The machine-readable error code of a TOTP response. -/
def TotpRes.errCode : TotpRes → Option String
  | .enrollRequired => some "enroll_required"
  | .invalidCode => some "invalid_code"
  | .ok _ => none

/-- `POST /api/auth/verify-enroll` (pg variant, lines 1052-1075): strip
non-digits from the code; require a user with a temp secret (self-heal a
corrupt temp field); verify via `authenticator.verify({token, secret,
window: 2})`; on success promote temp → permanent, set `totp_enabled`, clear
the temp slot in one `update`, and issue a session. -/
def verifyEnrollPg (C : SecretCipher) (db : DB) (emailRaw codeRaw : String)
    (iv : List Nat) (token : String) (epochMs now : Nat) : TotpRes × DB :=
  let email := normEmail emailRaw
  let code := stripNonDigits codeRaw
  match getUserByEmail db email with
  | none => (.enrollRequired, db)
  | some user =>
    match user.totpTempSecretEncrypted with
    | none => (.enrollRequired, db)
    | some blob =>
      match C.dec blob with
      | none =>
        (.enrollRequired,
         updateUser db user.id (fun x => { x with totpTempSecretEncrypted := none }))
      | some secret =>
        if authenticatorVerify { token := code, secret := secret, window := 2 } epochMs then
          let db1 := updateUser db user.id (fun x =>
            { x with
                totpEnabled := true
                totpSecretEncrypted := some (C.enc iv secret)
                totpTempSecretEncrypted := none })
          (.ok (user.role.getD DEFAULT_ROLE), insertSession db1 user.id token now)
        else (.invalidCode, db)

/-- `POST /api/auth/login` (pg variant, lines 1077-1095): a missing user, a
disabled flag, a missing permanent secret, or an undecryptable one all answer
`enroll_required`; then the same windowed verification. -/
def loginTotpPg (C : SecretCipher) (db : DB) (emailRaw codeRaw : String)
    (token : String) (epochMs now : Nat) : TotpRes × DB :=
  let email := normEmail emailRaw
  let code := stripNonDigits codeRaw
  match getUserByEmail db email with
  | none => (.enrollRequired, db)
  | some user =>
    if ¬ user.totpEnabled then (.enrollRequired, db)
    else
      match user.totpSecretEncrypted with
      | none => (.enrollRequired, db)
      | some blob =>
        match C.dec blob with
        | none => (.enrollRequired, db)
        | some secret =>
          if authenticatorVerify { token := code, secret := secret, window := 2 } epochMs then
            (.ok (user.role.getD DEFAULT_ROLE), insertSession db user.id token now)
          else (.invalidCode, db)

/-- `POST /api/auth/logout` (pg variant, lines 1120-1130; the sqlite variant,
lines 334-346, issues the same `delete from sessions where token_hash=$1`):
deletes every session row whose hash matches the presented cookie. -/
def logout (db : DB) (cookie : Option String) : DB :=
  match cookie with
  | none => db
  | some token =>
    { db with sessions := db.sessions.filter (fun s => !(s.tokenHash == hashHex token)) }

/-- `withAuth` session validation (pg variant, lines 875-890): hash the
cookie token, fetch the first session row with that hash, reject when absent
or `expires_at < now`, then resolve the user row. -/
def withAuthUser (db : DB) (cookie : Option String) (now : Nat) : Option User :=
  match cookie with
  | none => none
  | some token =>
    match db.sessions.find? (fun s => s.tokenHash == hashHex token) with
    | none => none
    | some s => if s.expiresAt < now then none else getUserById db s.userId

/-- Responses of `POST /api/admin/users/invite`. -/
inductive InviteRes where
  | invalidEmail
  | okExisting
  | okNew (userId : Nat)
deriving DecidableEq, Repr

/-- `POST /api/admin/users/invite` (pg variant, lines 1170-1184): coerce an
unknown role to `DEFAULT_ROLE`; if a user with the email exists, immediately
`update users set role=$1`; else immediately create the user with that role.
The handler reads only `email` and `role` from the body: the `expiresDays`
field the admin UI sends is never read, and no invite record of any kind is
written (the store has no invite table). -/
def inviteHandlerPg (db : DB) (emailRaw roleRaw : String) (expiresDays : Nat)
    (freshId now : Nat) : InviteRes × DB :=
  let email := normEmail emailRaw
  let role := if ROLES.contains roleRaw then roleRaw else DEFAULT_ROLE
  if ¬ emailOk email then (.invalidEmail, db)
  else
    match getUserByEmail db email with
    | some u => (.okExisting, updateUser db u.id (fun x => { x with role := some role }))
    | none =>
      (.okNew freshId,
       { db with users := db.users ++ [createUserRow freshId email DEFAULT_SPECIALTY role none now] })

/-- `POST /api/auth/admin/reset-user` (pg variant, debug-only, lines
1146-1156): get-or-create the user, clear all TOTP state, delete all of the
user's sessions. -/
def resetUserPg (db : DB) (emailRaw : String) (freshId now : Nat) : DB :=
  let email := normEmail emailRaw
  let found := getUserByEmail db email
  let user := found.getD (createUserRow freshId email DEFAULT_SPECIALTY DEFAULT_ROLE none now)
  let db0 := match found with
    | some _ => db
    | none => { db with users := db.users ++ [user] }
  let db1 := updateUser db0 user.id (fun x =>
    { x with
        totpEnabled := false
        totpSecretEncrypted := none
        totpTempSecretEncrypted := none })
  { db1 with sessions := db1.sessions.filter (fun s => !(s.userId == user.id)) }

/-! ## Route handlers — SQLite variant (`src/server/index.mjs` 1-530) -/

/-- Responses of the sqlite `POST /api/auth/login` (lines 264-280), which has
a fourth outcome the pg variant does not: 400 `not_found` when no user row
exists for the email. -/
inductive SqliteLoginRes where
  | notFound
  | enrollRequired
  | invalidCode
  | ok
deriving DecidableEq, Repr

/-- The machine-readable error code of a sqlite TOTP-login response. -/
def SqliteLoginRes.errCode : SqliteLoginRes → Option String
  | .notFound => some "not_found"
  | .enrollRequired => some "enroll_required"
  | .invalidCode => some "invalid_code"
  | .ok => none

/-- `POST /api/auth/login` (sqlite variant, lines 264-280): `not_found` for a
missing user; `enroll_required` when not enrolled or the secret does not
decrypt (no state change); otherwise the same windowed verification. -/
def loginTotpSqlite (C : SecretCipher) (db : DB) (emailRaw codeRaw : String)
    (token : String) (epochMs now : Nat) : SqliteLoginRes × DB :=
  let email := normEmail emailRaw
  let code := stripNonDigits codeRaw
  match getUserByEmail db email with
  | none => (.notFound, db)
  | some user =>
    if ¬ user.totpEnabled then (.enrollRequired, db)
    else
      match user.totpSecretEncrypted with
      | none => (.enrollRequired, db)
      | some blob =>
        match C.dec blob with
        | none => (.enrollRequired, db)
        | some secret =>
          if authenticatorVerify { token := code, secret := secret, window := 2 } epochMs then
            (.ok, insertSession db user.id token now)
          else (.invalidCode, db)

/-- `POST /api/auth/login-password` (sqlite variant, lines 283-297): the same
shape as the pg variant — both failure reasons answer `invalid_credentials`. -/
def loginPasswordSqlite (db : DB) (emailRaw passwordRaw : String) (token : String)
    (now : Nat) : LoginPwRes × DB :=
  let email := normEmail emailRaw
  match getUserByEmail db email with
  | none => (.invalidCredentials, db)
  | some user =>
    match user.passwordHash with
    | none => (.invalidCredentials, db)
    | some h =>
      if argon2Verify h passwordRaw then (.ok "", insertSession db user.id token now)
      else (.invalidCredentials, db)

/-- Responses of the sqlite `POST /api/auth/register` (lines 300-316):
`invalid_input` or `{ ok: true }` — again no 409 branch. -/
inductive SqliteRegisterRes where
  | invalidInput
  | ok
deriving DecidableEq, Repr

/-- `POST /api/auth/register` (sqlite variant, lines 300-316): create the
user if absent, then overwrite `password_hash` — an existing account's
password is replaced, never refused. -/
def registerSqlite (db : DB) (emailRaw passwordRaw : String)
    (freshId salt now : Nat) : SqliteRegisterRes × DB :=
  let email := normEmail emailRaw
  let password := passwordRaw
  if ¬ (emailOk email ∧ password.length ≥ 6) then (.invalidInput, db)
  else
    let found := getUserByEmail db email
    let user := found.getD (createUserRowSqlite freshId email now)
    let db0 := match found with
      | some _ => db
      | none => { db with users := db.users ++ [user] }
    (.ok, updateUser db0 user.id
      (fun x => { x with passwordHash := some (argon2Hash salt password) }))

/-! ## Asynchronous ordering of session persistence (spec §5, claim about
`issueSession`)

The sqlite variant's `issueSession` (lines 177-187) runs
`SQL.createSession.run(...)` — a synchronous better-sqlite3 call that has
completed before `res.cookie(...)` executes. The pg variant's `issueSession`
(lines 948-963) calls `query('insert into sessions ...').catch(...)` WITHOUT
`await` (the function is not even async) and then sets the cookie at once:
the insert is dispatched fire-and-forget and may complete, or fail, at any
time after the response. The small-step model below captures exactly that
ordering structure. -/

/-- The steps a handler performs, as written in the source. -/
inductive AStep where
  | syncInsert
  | asyncInsertNoAwait
  | setCookie
  | respond
deriving DecidableEq, Repr

/-- Observable events of an execution. -/
inductive Ev where
  | insertPersisted
  | cookieWritten
  | responded
deriving DecidableEq, Repr

/-- `Exec prog pending tr`: running the remaining `prog` with `pending`
dispatched-but-uncompleted inserts can produce the event sequence `tr`.
A pending insert may complete at any point (`flush`) or never (a failed
insert swallowed by `.catch`, covered by `nil`). -/
inductive Exec : List AStep → Nat → List Ev → Prop where
  | nil (p : Nat) : Exec [] p []
  | flush {prog : List AStep} {p : Nat} {tr : List Ev} :
      Exec prog p tr → Exec prog (p + 1) (.insertPersisted :: tr)
  | syncIns {prog : List AStep} {p : Nat} {tr : List Ev} :
      Exec prog p tr → Exec (.syncInsert :: prog) p (.insertPersisted :: tr)
  | asyncIns {prog : List AStep} {p : Nat} {tr : List Ev} :
      Exec prog (p + 1) tr → Exec (.asyncInsertNoAwait :: prog) p tr
  | cook {prog : List AStep} {p : Nat} {tr : List Ev} :
      Exec prog p tr → Exec (.setCookie :: prog) p (.cookieWritten :: tr)
  | resp {prog : List AStep} {p : Nat} {tr : List Ev} :
      Exec prog p tr → Exec (.respond :: prog) p (.responded :: tr)

/-- The sqlite `issueSession` followed by the route's `res.json` (lines
177-187 plus e.g. 256): synchronous insert, then cookie, then response. -/
def sqliteIssueProg : List AStep := [.syncInsert, .setCookie, .respond]

/-- The pg `issueSession` followed by the route's `res.json` (lines 948-963
plus e.g. 1073): unawaited insert dispatch, then cookie, then response. -/
def pgIssueProg : List AStep := [.asyncInsertNoAwait, .setCookie, .respond]

/-! ## The concrete AEAD instance used for witnesses -/

/-- `toyUnseal` accepts exactly what `toySeal` produces (and nothing that is
not sealable): the `AEADModel` contract holds. -/
def toyAEAD : AEADModel where
  sealB := toySeal
  openB := toyUnseal
  tag_len := by
    intro iv m
    show (toyMac iv m).length = 16
    unfold toyMac
    generalize (iv ++ 255 :: m).foldl (fun a b => (a * 257 + b % 256 + 1) % 2 ^ 128) 1 = n
    clear iv m
    induction 16 generalizing n with
    | zero => rfl
    | succ k ih => simp [beBytes, ih]
  ct_len := by intro iv m; simp [toySeal]
  tag_bytes := by
    intro iv m
    show bytesOk (toyMac iv m)
    unfold toyMac bytesOk
    generalize ((iv ++ 255 :: m).foldl (fun a b => (a * 257 + b % 256 + 1) % 2 ^ 128) 1) = n
    induction 16 generalizing n with
    | zero => simp [beBytes]
    | succ k ih =>
      intro b hb
      simp only [beBytes, List.mem_append, List.mem_singleton] at hb
      rcases hb with h | h
      · exact ih (n / 256) b h
      · rw [h]
        exact Nat.mod_lt _ (by omega)
  ct_bytes := by
    intro iv m b hb
    obtain ⟨x, hx, hbe⟩ := List.mem_map.mp hb
    rw [← hbe]
    exact Nat.mod_lt _ (by omega)
  open_sealB := by
    intro iv m hm
    have hmap : m.map (· % 256) = m := by
      induction m with
      | nil => rfl
      | cons a l ih =>
        have ha : a < 256 := hm a (by simp)
        simp only [List.map_cons]
        rw [Nat.mod_eq_of_lt ha, ih (fun b hb => hm b (by simp [hb]))]
    show toyUnseal iv (toyMac iv m) (m.map (· % 256)) = some m
    rw [hmap]
    unfold toyUnseal
    have hall : m.all (fun b => b < 256) = true := by
      rw [List.all_eq_true]; intro b hb; exact decide_eq_true (hm b hb)
    simp [hall]

/-! ## Spec-side definitions used to state the claims -/

/-- The TOTP value for a secret at a given 30-second step (`none` when the
secret is not valid base32). -/
def totpAt (secret : String) (step : Nat) : Option String :=
  (base32Decode secret).map (fun key => hotpToken key step AUTH_DIGITS)

/-- Written from the spec's words (§4.3 "Numeric semantics"): a submitted code
is acceptable iff it matches the TOTP value of the previous, the current, or
the next 30-second step (a previous step exists only when the counter is
positive). This definition is compared against the code's verification. -/
def specAcceptsPm1 (secret code : String) (epochMs : Nat) : Bool :=
  let c := totpCounter epochMs AUTH_STEP
  (decide (1 ≤ c) && (totpAt secret (c - 1) == some code)) ||
  (totpAt secret c == some code) || (totpAt secret (c + 1) == some code)

/-- The generic authentication-failure codes of the spec's error taxonomy
(§7): the codes that do not reveal whether an email has an account. -/
def SAFE_CODES : List String := ["invalid_credentials", "invalid_code", "enroll_required"]

/-- The per-user TOTP invariant of spec §3/§4.3: an enrolled user
(`totpEnabled`) has no pending temp secret. -/
def TotpInv (u : User) : Prop := u.totpEnabled = true → u.totpTempSecretEncrypted = none

instance (u : User) : Decidable (TotpInv u) := by unfold TotpInv; infer_instance

/-- Store well-formedness: row ids are unique (the store's primary key), and
every user satisfies the TOTP invariant. -/
def DBInv (db : DB) : Prop :=
  (db.users.map (fun u => u.id)).Nodup ∧ ∀ u ∈ db.users, TotpInv u

instance (db : DB) : Decidable (DBInv db) := by unfold DBInv; infer_instance

/-- One auth-route execution step of the pg server: each constructor runs one
embedded handler with arbitrary request fields and nondeterministic inputs.
Freshness of generated row ids (`gen_random_uuid()` / the serial primary key)
is the side condition `hf`. -/
inductive AuthStep (C : SecretCipher) : DB → DB → Prop where
  | register (db : DB) (e p s : String) (fid salt now : Nat)
      (hf : fid ∉ db.users.map (fun u => u.id)) :
      AuthStep C db (registerPg db e p s fid salt now).2
  | loginPw (db : DB) (e p tok : String) (now : Nat) :
      AuthStep C db (loginPasswordPg db e p tok now).2
  | start (db : DB) (e : String) (force : Bool) (sec : String) (iv : List Nat)
      (fid now : Nat) (hf : fid ∉ db.users.map (fun u => u.id)) :
      AuthStep C db (startPg C db e force sec iv fid now).2
  | verifyEnroll (db : DB) (e c tok : String) (iv : List Nat) (em now : Nat) :
      AuthStep C db (verifyEnrollPg C db e c iv tok em now).2
  | loginTotp (db : DB) (e c tok : String) (em now : Nat) :
      AuthStep C db (loginTotpPg C db e c tok em now).2
  | logoutStep (db : DB) (ck : Option String) :
      AuthStep C db (logout db ck)
  | inviteStep (db : DB) (e r : String) (d fid now : Nat)
      (hf : fid ∉ db.users.map (fun u => u.id)) :
      AuthStep C db (inviteHandlerPg db e r d fid now).2
  | resetStep (db : DB) (e : String) (fid now : Nat)
      (hf : fid ∉ db.users.map (fun u => u.id)) :
      AuthStep C db (resetUserPg db e fid now)

/-- Reachability along auth-route executions. -/
def Reachable (C : SecretCipher) : DB → DB → Prop := Relation.ReflTransGen (AuthStep C)

/-! ## Concrete fixtures for witnesses and counterexamples -/

/-- The RFC 4226/6238 test secret `12345678901234567890`, base32-encoded —
what `authenticator.generateSecret()` hands out format-wise. -/
def wSecret : String := "GEZDGNBVGY3TQOJQGEZDGNBVGY3TQOJQ"

/-- The byte form of the RFC test secret: the ASCII bytes of
`12345678901234567890` (= `base32Decode wSecret`, proved below). -/
def rfcKey : List Nat :=
  [49, 50, 51, 52, 53, 54, 55, 56, 57, 48, 49, 50, 51, 52, 53, 54, 55, 56, 57, 48]

/-- A fixed 12-byte iv for witnesses. -/
def wIv : List Nat := List.replicate 12 7

/-- An encrypted blob of `wSecret` under the concrete cipher. -/
def wBlob : String := (pipeCipher toyAEAD).enc wIv wSecret

/-- A user mid-enrollment (PendingEnrollment): temp secret set, not enabled. -/
def wUserPending : User :=
  { id := 1, email := "alice@example.com", passwordHash := none,
    totpEnabled := false, totpSecretEncrypted := none,
    totpTempSecretEncrypted := some wBlob, role := some "doctor",
    specialty := some "general_physician", clinicId := none, createdAt := 0 }

/-- A store with the pending user. -/
def wDbPending : DB := { users := [wUserPending], sessions := [] }

/-- An enrolled user: permanent secret set, enabled, no temp. -/
def wUserEnrolled : User :=
  { id := 2, email := "bob@example.com", passwordHash := none,
    totpEnabled := true, totpSecretEncrypted := some wBlob,
    totpTempSecretEncrypted := none, role := some "doctor",
    specialty := some "general_physician", clinicId := none, createdAt := 0 }

/-- A store with the enrolled user. -/
def wDbEnrolled : DB := { users := [wUserEnrolled], sessions := [] }

/-- An account that already exists with a password (claim C2's scenario). -/
def c2User : User :=
  { id := 3, email := "doc@example.com", passwordHash := some (argon2Hash 1 "secret1"),
    totpEnabled := false, totpSecretEncrypted := none, totpTempSecretEncrypted := none,
    role := some "doctor", specialty := some "general_physician", clinicId := none,
    createdAt := 0 }

/-- A store with the existing account. -/
def c2Db : DB := { users := [c2User], sessions := [] }

/-- An empty store: no account exists for any email. -/
def c3Db : DB := { users := [], sessions := [] }

/-- A user whose session is exactly at its expiry instant. -/
def c4User : User :=
  { id := 7, email := "carol@example.com", passwordHash := none,
    totpEnabled := false, totpSecretEncrypted := none, totpTempSecretEncrypted := none,
    role := some "doctor", specialty := some "general_physician", clinicId := none,
    createdAt := 0 }

/-- A store whose one session expires exactly at time 1000000. -/
def c4Db : DB :=
  { users := [c4User],
    sessions := [{ userId := 7, tokenHash := hashHex "boundary-token",
                   expiresAt := 1000000, createdAt := 1000000 - SESSION_TTL_S }] }

/-- An existing staff member with role `doctor` (claim C6's scenario). -/
def c6User : User :=
  { id := 10, email := "nurse@clinic.com", passwordHash := none,
    totpEnabled := false, totpSecretEncrypted := none, totpTempSecretEncrypted := none,
    role := some "doctor", specialty := some "general_physician", clinicId := none,
    createdAt := 0 }

/-- A store with the existing staff member. -/
def c6Db : DB := { users := [c6User], sessions := [] }

/-! ## Shared lemmas -/

/-- `find?` over a pointwise-transformed list, when the transformation does
not change the predicate's verdict. -/
theorem find?_map_pres {α : Type} (l : List α) (g : α → α) (p : α → Bool)
    (h : ∀ x, p (g x) = p x) : (l.map g).find? p = (l.find? p).map g := by
  rw [List.find?_map]
  have hc : (p ∘ g) = p := funext h
  rw [hc]

/-- Email lookup after an `update ... where id=...` that does not change
emails. -/
theorem getUserByEmail_updateUser (db : DB) (id : Nat) (f : User → User) (email : String)
    (hf : ∀ u, (f u).email = u.email) :
    getUserByEmail (updateUser db id f) email =
      (getUserByEmail db email).map (fun u => if u.id = id then f u else u) := by
  unfold getUserByEmail updateUser
  exact find?_map_pres _ _ _ (fun u => by by_cases hc : u.id = id <;> simp [hc, hf])

/-- The windowed check with the configured window 1 accepts exactly the
previous (when it exists), the current, or the next step's token. -/
theorem authCheck_eq_spec (token secret : String) (epochMs : Nat) :
    authenticatorCheck token secret epochMs = specAcceptsPm1 secret token epochMs := by
  unfold authenticatorCheck specAcceptsPm1 totpAt
  cases hb : base32Decode secret with
  | none => simp
  | some key =>
    rw [Bool.eq_iff_iff]
    unfold totpCheckWithWindow AUTH_WINDOW
    have h2 : List.range (1 + 1) = [0, 1] := rfl
    have h1 : List.range' 1 1 = [1] := rfl
    simp only [h2, h1, List.any_cons, List.any_nil, Option.map_some', Bool.or_eq_true,
      Bool.and_eq_true, beq_iff_eq, decide_eq_true_eq, Option.some.injEq, Bool.or_false]
    simp only [Nat.zero_le, Nat.sub_zero, true_and, or_false]
    constructor
    · rintro ((h | ⟨hc, h⟩) | h)
      · exact Or.inl (Or.inr h.symm)
      · exact Or.inl (Or.inl ⟨hc, h.symm⟩)
      · exact Or.inr h.symm
    · rintro ((⟨hc, h⟩ | h) | h)
      · exact Or.inl (Or.inr ⟨hc, h.symm⟩)
      · exact Or.inl (Or.inl h.symm)
      · exact Or.inr h.symm

set_option maxHeartbeats 4000000 in
/-- The witness secret decodes to the RFC test key. Rewriting with this
equation before evaluating keeps every HOTP computation below over the
literal key, which the kernel evaluates cheaply. -/
theorem base32_wSecret : base32Decode wSecret = some rfcKey := by decide

set_option maxHeartbeats 4000000 in
/-- At epoch 59s (step 1) the current step's RFC code is acceptable. -/
theorem specAccepts_287082 : specAcceptsPm1 wSecret "287082" 59000 = true := by
  unfold specAcceptsPm1 totpAt
  rw [base32_wSecret]
  decide

set_option maxHeartbeats 4000000 in
/-- At epoch 59s the RFC code of step 3 — two steps ahead — is not
acceptable. -/
theorem specAccepts_969429 : specAcceptsPm1 wSecret "969429" 59000 = false := by
  unfold specAcceptsPm1 totpAt
  rw [base32_wSecret]
  decide

set_option maxHeartbeats 4000000 in
/-- The configured verifier accepts the current step's code at epoch 59s. -/
theorem av_287082 :
    authenticatorVerify
      { token := stripNonDigits "287082", secret := wSecret, window := 2 } 59000 = true := by
  show authenticatorCheck (stripNonDigits "287082") wSecret 59000 = true
  unfold authenticatorCheck
  rw [base32_wSecret]
  decide

set_option maxHeartbeats 4000000 in
/-- The configured verifier rejects a code matching no nearby step. -/
theorem av_999999 :
    authenticatorVerify
      { token := stripNonDigits "999999", secret := wSecret, window := 2 } 59000 = false := by
  show authenticatorCheck (stripNonDigits "999999") wSecret 59000 = false
  unfold authenticatorCheck
  rw [base32_wSecret]
  decide

set_option maxHeartbeats 4000000 in
/-- The concrete pending user enrolls successfully with the current step's
code. -/
theorem verifyEnroll_w_ok :
    (verifyEnrollPg (pipeCipher toyAEAD) wDbPending "alice@example.com" "287082"
      wIv "tok" 59000 59).1 = TotpRes.ok "doctor" := by
  have hu : getUserByEmail wDbPending (normEmail "alice@example.com") = some wUserPending := by
    decide
  have ht : wUserPending.totpTempSecretEncrypted = some wBlob := rfl
  have hd : (pipeCipher toyAEAD).dec wBlob = some wSecret := by decide
  simp [verifyEnrollPg, hu, ht, hd, av_287082, wUserPending]

set_option maxHeartbeats 4000000 in
/-- The concrete pending user's enrollment fails with `invalid_code` on a
code matching no nearby step. -/
theorem verifyEnroll_w_bad :
    (verifyEnrollPg (pipeCipher toyAEAD) wDbPending "alice@example.com" "999999"
      wIv "tok" 59000 59).1 = TotpRes.invalidCode := by
  have hu : getUserByEmail wDbPending (normEmail "alice@example.com") = some wUserPending := by
    decide
  have ht : wUserPending.totpTempSecretEncrypted = some wBlob := rfl
  have hd : (pipeCipher toyAEAD).dec wBlob = some wSecret := by decide
  simp [verifyEnrollPg, hu, ht, hd, av_999999]

/-! ## Claim C6 -/

/-- **C6** (status: code_bug, evaluated at the failing input). The claim says
an admin invite request creates a pending `StaffInvite` record (random code,
bounded expiry) and leaves the target user's role unchanged until a later
`register` consumes the invite. The handler at `src/server/index.mjs`
1170-1184 does neither: for an existing user it immediately rewrites
`users.role`; it creates no invite record of any kind (the server has no
invite storage, while the repo's own admin UI `src/pages/admin.tsx` renders
`invite.status`/`invite.code` from `GET /admin/invites` and bounds
`expiresDays` to 1-60); and the `expiresDays` field is ignored entirely
(the result is the same for every value of it). -/
theorem C6_invite_applies_role_immediately :
    (inviteHandlerPg c6Db "nurse@clinic.com" "receptionist" 14 77 1000).1 =
      InviteRes.okExisting ∧
    ((getUserByEmail (inviteHandlerPg c6Db "nurse@clinic.com" "receptionist" 14 77 1000).2
        "nurse@clinic.com").map (fun u => u.role)) = some (some "receptionist") ∧
    c6User.role = some "doctor" ∧
    (∀ d : Nat, inviteHandlerPg c6Db "nurse@clinic.com" "receptionist" d 77 1000 =
      inviteHandlerPg c6Db "nurse@clinic.com" "receptionist" 14 77 1000) :=
  ⟨by decide, by decide, by decide, fun d => rfl⟩

/-! ## Claim C5 -/

/-- **C5** (status: code_bug). The claim (and spec §5) requires the session
cookie to reach the client only after the session row is durably persisted.
The pg `issueSession` (lines 948-963) dispatches the insert without awaiting
it: there is an execution of `pgIssueProg` that writes the cookie and sends
the response while the insert has not completed (equally: has failed — its
error is swallowed by `.catch`). The sqlite variant (lines 177-187), whose
insert is synchronous, persists before the cookie in every execution. -/
theorem C5_cookie_before_persist :
    (∃ tr, Exec pgIssueProg 0 tr ∧ Ev.cookieWritten ∈ tr ∧ Ev.responded ∈ tr ∧
      Ev.insertPersisted ∉ tr) ∧
    (∀ tr, Exec sqliteIssueProg 0 tr → ∃ rest, tr = Ev.insertPersisted :: rest) := by
  constructor
  · refine ⟨[Ev.cookieWritten, Ev.responded], ?_, by decide, by decide, by decide⟩
    exact Exec.asyncIns (Exec.cook (Exec.resp (Exec.nil 1)))
  · intro tr h
    cases h with
    | syncIns h' => exact ⟨_, rfl⟩

/-- Witness for C5: the second conjunct applied to the synchronous trace. -/
theorem C5_cookie_before_persist_witness :
    ∃ rest, [Ev.insertPersisted, Ev.cookieWritten, Ev.responded] = Ev.insertPersisted :: rest :=
  C5_cookie_before_persist.2 _ (Exec.syncIns (Exec.cook (Exec.resp (Exec.nil 0))))

/-! ## Claim C3 -/

/-- **C3 counterexample**: on the sqlite variant's TOTP login, an email with
no account is answered with the distinct code `not_found` (line 269), which
is outside the generic set — the response reveals that the email has no
account, contradicting the claim. -/
theorem C3_counterexample :
    ((loginTotpSqlite (pipeCipher toyAEAD) c3Db "ghost@nowhere.com" "123456"
        "tok" 59000 59).1).errCode = some "not_found" ∧
    "not_found" ∉ SAFE_CODES :=
  ⟨by decide, by decide⟩

/-- **C3 amended**: the pg `login-password` (and its sqlite twin) answer
`invalid_credentials` both for a missing account and for a wrong password;
the pg TOTP login answers `enroll_required` for a missing account — the same
response an existing-but-unenrolled account gets — and all its error codes
are in the generic set. The exception is the sqlite TOTP login, which answers
`not_found` (outside the generic set) exactly when the email has no account. -/
theorem C3_generic_auth_errors :
    (∀ db e p tok now, getUserByEmail db (normEmail e) = none →
      (loginPasswordPg db e p tok now).1 = LoginPwRes.invalidCredentials) ∧
    (∀ db e p tok now u h, getUserByEmail db (normEmail e) = some u →
      u.passwordHash = some h → argon2Verify h p = false →
      (loginPasswordPg db e p tok now).1 = LoginPwRes.invalidCredentials) ∧
    (∀ db e p tok now, getUserByEmail db (normEmail e) = none →
      (loginPasswordSqlite db e p tok now).1 = LoginPwRes.invalidCredentials) ∧
    (∀ db e p tok now u h, getUserByEmail db (normEmail e) = some u →
      u.passwordHash = some h → argon2Verify h p = false →
      (loginPasswordSqlite db e p tok now).1 = LoginPwRes.invalidCredentials) ∧
    (∀ C db e c tok em now, getUserByEmail db (normEmail e) = none →
      (loginTotpPg C db e c tok em now).1 = TotpRes.enrollRequired) ∧
    (∀ C db e c tok em now u, getUserByEmail db (normEmail e) = some u →
      u.totpEnabled = false → (loginTotpPg C db e c tok em now).1 = TotpRes.enrollRequired) ∧
    (∀ C db e c tok em now r, (loginTotpPg C db e c tok em now).1.errCode = some r →
      r ∈ SAFE_CODES) ∧
    (∀ C db e c tok em now, getUserByEmail db (normEmail e) = none →
      (loginTotpSqlite C db e c tok em now).1 = SqliteLoginRes.notFound) := by
  refine ⟨?_, ?_, ?_, ?_, ?_, ?_, ?_, ?_⟩
  · intro db e p tok now h
    simp [loginPasswordPg, h]
  · intro db e p tok now u hh hu hp hv
    simp [loginPasswordPg, hu, hp, hv]
  · intro db e p tok now h
    simp [loginPasswordSqlite, h]
  · intro db e p tok now u hh hu hp hv
    simp [loginPasswordSqlite, hu, hp, hv]
  · intro C db e c tok em now h
    simp [loginTotpPg, h]
  · intro C db e c tok em now u hu he
    simp [loginTotpPg, hu, he]
  · intro C db e c tok em now r h
    cases hres : (loginTotpPg C db e c tok em now).1 with
    | enrollRequired => rw [hres] at h; exact (Option.some.inj h) ▸ (by decide)
    | invalidCode => rw [hres] at h; exact (Option.some.inj h) ▸ (by decide)
    | ok role => rw [hres] at h; exact absurd h (by simp [TotpRes.errCode])
  · intro C db e c tok em now h
    simp [loginTotpSqlite, h]

/-- Witness for C3's amended theorem at concrete inputs. -/
theorem C3_generic_auth_errors_witness :
    getUserByEmail c3Db (normEmail "ghost@nowhere.com") = none ∧
    (loginPasswordPg c3Db "ghost@nowhere.com" "pw" "tok" 10).1 =
      LoginPwRes.invalidCredentials ∧
    (loginTotpSqlite (pipeCipher toyAEAD) c3Db "ghost@nowhere.com" "123456"
      "tok" 59000 59).1 = SqliteLoginRes.notFound :=
  ⟨by decide,
   C3_generic_auth_errors.1 c3Db "ghost@nowhere.com" "pw" "tok" 10 (by decide),
   C3_generic_auth_errors.2.2.2.2.2.2.2 (pipeCipher toyAEAD) c3Db "ghost@nowhere.com"
     "123456" "tok" 59000 59 (by decide)⟩

/-! ## Claim C1 -/

/-- **C1**: with the configured `authenticator.options = {step: 30, window:
1}` — and otplib v12's `verify` discarding the stray `window: 2` field passed
at the call sites — both `verify-enroll` (against the temp secret) and the
TOTP `login` (against the permanent secret) accept a submitted code iff its
digit-stripped form equals the TOTP value of the previous, the current, or
the next 30-second step (`specAcceptsPm1`), and otherwise answer
`invalid_code`. In particular a non-colliding code from 2+ steps away is
rejected. -/
theorem C1_totp_window_exactly_pm1 :
    ∀ (C : SecretCipher) (db : DB) (emailRaw codeRaw : String) (iv : List Nat)
      (token : String) (epochMs now : Nat) (user : User) (blob secret : String),
      getUserByEmail db (normEmail emailRaw) = some user →
      ((user.totpTempSecretEncrypted = some blob → C.dec blob = some secret →
        (((verifyEnrollPg C db emailRaw codeRaw iv token epochMs now).1 =
            TotpRes.ok (user.role.getD DEFAULT_ROLE) ↔
          specAcceptsPm1 secret (stripNonDigits codeRaw) epochMs = true) ∧
         ((verifyEnrollPg C db emailRaw codeRaw iv token epochMs now).1 =
            TotpRes.invalidCode ↔
          specAcceptsPm1 secret (stripNonDigits codeRaw) epochMs = false))) ∧
       (user.totpEnabled = true → user.totpSecretEncrypted = some blob →
        C.dec blob = some secret →
        (((loginTotpPg C db emailRaw codeRaw token epochMs now).1 =
            TotpRes.ok (user.role.getD DEFAULT_ROLE) ↔
          specAcceptsPm1 secret (stripNonDigits codeRaw) epochMs = true) ∧
         ((loginTotpPg C db emailRaw codeRaw token epochMs now).1 =
            TotpRes.invalidCode ↔
          specAcceptsPm1 secret (stripNonDigits codeRaw) epochMs = false)))) := by
  intro C db emailRaw codeRaw iv token epochMs now user blob secret hu
  constructor
  · intro ht hd
    have hv : authenticatorVerify
        { token := stripNonDigits codeRaw, secret := secret, window := 2 } epochMs =
        specAcceptsPm1 secret (stripNonDigits codeRaw) epochMs := by
      unfold authenticatorVerify
      exact authCheck_eq_spec _ _ _
    cases hs : specAcceptsPm1 secret (stripNonDigits codeRaw) epochMs with
    | true => simp [verifyEnrollPg, hu, ht, hd, hv, hs]
    | false => simp [verifyEnrollPg, hu, ht, hd, hv, hs]
  · intro he hsec hd
    have hv : authenticatorVerify
        { token := stripNonDigits codeRaw, secret := secret, window := 2 } epochMs =
        specAcceptsPm1 secret (stripNonDigits codeRaw) epochMs := by
      unfold authenticatorVerify
      exact authCheck_eq_spec _ _ _
    cases hs : specAcceptsPm1 secret (stripNonDigits codeRaw) epochMs with
    | true => simp [loginTotpPg, hu, he, hsec, hd, hv, hs]
    | false => simp [loginTotpPg, hu, he, hsec, hd, hv, hs]

set_option maxHeartbeats 4000000 in
/-- Witness for C1: the RFC 6238 secret at epoch 59s (counter 1). The current
step's code `287082` enrolls successfully; the code `969429` of step 3 — two
steps ahead — is rejected with `invalid_code` on login. -/
theorem C1_totp_window_exactly_pm1_witness :
    getUserByEmail wDbPending (normEmail "Alice@example.com") = some wUserPending ∧
    (pipeCipher toyAEAD).dec wBlob = some wSecret ∧
    specAcceptsPm1 wSecret "287082" 59000 = true ∧
    specAcceptsPm1 wSecret "969429" 59000 = false ∧
    (verifyEnrollPg (pipeCipher toyAEAD) wDbPending "Alice@example.com" "287082"
      wIv "tok" 59000 59).1 = TotpRes.ok "doctor" ∧
    (loginTotpPg (pipeCipher toyAEAD) wDbEnrolled "bob@example.com" "969429"
      "tok" 59000 59).1 = TotpRes.invalidCode := by
  refine ⟨by decide, by decide, specAccepts_287082, specAccepts_969429, ?_, ?_⟩
  · have h := (C1_totp_window_exactly_pm1 (pipeCipher toyAEAD) wDbPending
      "Alice@example.com" "287082" wIv "tok" 59000 59 wUserPending wBlob wSecret
      (by decide)).1 rfl (by decide)
    exact h.1.mpr specAccepts_287082
  · have h := (C1_totp_window_exactly_pm1 (pipeCipher toyAEAD) wDbEnrolled
      "bob@example.com" "969429" wIv "tok" 59000 59 wUserEnrolled wBlob wSecret
      (by decide)).2 rfl rfl (by decide)
    exact h.2.mpr specAccepts_969429

/-! ## Claim C9 -/

/-- The pg `verify-enroll` depends on the submitted code only through its
digit subsequence. -/
theorem verifyEnroll_code_congr (C : SecretCipher) (db : DB) (e c1 c2 : String)
    (iv : List Nat) (tok : String) (em now : Nat)
    (h : stripNonDigits c1 = stripNonDigits c2) :
    verifyEnrollPg C db e c1 iv tok em now = verifyEnrollPg C db e c2 iv tok em now := by
  unfold verifyEnrollPg
  rw [h]

/-- The pg TOTP `login` depends on the submitted code only through its digit
subsequence. -/
theorem loginTotp_code_congr (C : SecretCipher) (db : DB) (e c1 c2 tok : String)
    (em now : Nat) (h : stripNonDigits c1 = stripNonDigits c2) :
    loginTotpPg C db e c1 tok em now = loginTotpPg C db e c2 tok em now := by
  unfold loginTotpPg
  rw [h]

/-- The sqlite TOTP `login` depends on the submitted code only through its
digit subsequence. -/
theorem loginTotpSqlite_code_congr (C : SecretCipher) (db : DB) (e c1 c2 tok : String)
    (em now : Nat) (h : stripNonDigits c1 = stripNonDigits c2) :
    loginTotpSqlite C db e c1 tok em now = loginTotpSqlite C db e c2 tok em now := by
  unfold loginTotpSqlite
  rw [h]

/-- **C9**: every TOTP endpoint strips non-digits from the submitted code
before verification (`String(code).replace(/\D/g, '')`), so two inputs with
the same digit subsequence produce identical responses and state; in
particular, whenever a pure 6-digit code is accepted, any decoration of it
with non-digits (`"123 456"`, `"123-456"`) is accepted the same way. -/
theorem C9_code_depends_only_on_digits :
    (∀ (C : SecretCipher) (db : DB) (e c1 c2 : String) (iv : List Nat) (tok : String)
      (em now : Nat), stripNonDigits c1 = stripNonDigits c2 →
      verifyEnrollPg C db e c1 iv tok em now = verifyEnrollPg C db e c2 iv tok em now) ∧
    (∀ (C : SecretCipher) (db : DB) (e c1 c2 tok : String) (em now : Nat),
      stripNonDigits c1 = stripNonDigits c2 →
      loginTotpPg C db e c1 tok em now = loginTotpPg C db e c2 tok em now) ∧
    (∀ (C : SecretCipher) (db : DB) (e c1 c2 tok : String) (em now : Nat),
      stripNonDigits c1 = stripNonDigits c2 →
      loginTotpSqlite C db e c1 tok em now = loginTotpSqlite C db e c2 tok em now) ∧
    (∀ (C : SecretCipher) (db : DB) (e c c' : String) (iv : List Nat) (tok : String)
      (em now : Nat) (r : String),
      (verifyEnrollPg C db e c iv tok em now).1 = TotpRes.ok r →
      stripNonDigits c' = stripNonDigits c →
      (verifyEnrollPg C db e c' iv tok em now).1 = TotpRes.ok r) := by
  refine ⟨verifyEnroll_code_congr, loginTotp_code_congr, loginTotpSqlite_code_congr, ?_⟩
  intro C db e c c' iv tok em now r hok h
  rw [verifyEnroll_code_congr C db e c' c iv tok em now h]
  exact hok

set_option maxHeartbeats 4000000 in
/-- Witness for C9: `"287 082"` and `"287-082"` behave exactly like
`"287082"`, which enrolls successfully at epoch 59s. -/
theorem C9_code_depends_only_on_digits_witness :
    stripNonDigits "287 082" = stripNonDigits "287082" ∧
    verifyEnrollPg (pipeCipher toyAEAD) wDbPending "alice@example.com" "287 082"
        wIv "tok" 59000 59 =
      verifyEnrollPg (pipeCipher toyAEAD) wDbPending "alice@example.com" "287082"
        wIv "tok" 59000 59 ∧
    (verifyEnrollPg (pipeCipher toyAEAD) wDbPending "alice@example.com" "287-082"
        wIv "tok" 59000 59).1 = TotpRes.ok "doctor" := by
  refine ⟨by decide, ?_, ?_⟩
  · exact C9_code_depends_only_on_digits.1 (pipeCipher toyAEAD) wDbPending
      "alice@example.com" "287 082" "287082" wIv "tok" 59000 59 (by decide)
  · exact C9_code_depends_only_on_digits.2.2.2 (pipeCipher toyAEAD) wDbPending
      "alice@example.com" "287082" "287-082" wIv "tok" 59000 59 "doctor"
      verifyEnroll_w_ok (by decide)

/-! ## Claim C2 -/

/-- `v ∈ (updateUser db id f).users` comes from some original row. -/
theorem mem_updateUser {db : DB} {id : Nat} {f : User → User} {v : User}
    (hv : v ∈ (updateUser db id f).users) :
    ∃ u ∈ db.users, v = if u.id = id then f u else u := by
  unfold updateUser at hv
  obtain ⟨u, hu, he⟩ := List.mem_map.mp hv
  exact ⟨u, hu, he.symm⟩

/-- **C2 counterexample**: registering `doc@example.com` — an email that
already has an account with a password hash — does not fail with 409
`account_exists`: it answers `{ok, role}` and replaces the stored password
hash with a hash of the newly submitted password. -/
theorem C2_counterexample :
    (registerPg c2Db "doc@example.com" "secret2" "" 99 2 500).1 = RegisterRes.ok "doctor" ∧
    ((getUserByEmail (registerPg c2Db "doc@example.com" "secret2" "" 99 2 500).2
        "doc@example.com").map (fun u => u.passwordHash)) =
      some (some (argon2Hash 2 "secret2")) ∧
    c2User.passwordHash = some (argon2Hash 1 "secret1") :=
  ⟨by decide, by decide, by decide⟩

/-- **C2 amended**: `POST /auth/register` has no 409 outcome at all. For a
valid request whose email already has an account it succeeds with
`{ok, role}` — the existing account's role — and overwrites the stored
password hash with the fresh argon2 hash of the submitted password. -/
theorem C2_register_overwrites_existing :
    (∀ db e p s fid salt now,
      (registerPg db e p s fid salt now).1 = RegisterRes.invalidInput ∨
      ∃ r, (registerPg db e p s fid salt now).1 = RegisterRes.ok r) ∧
    (∀ db e p s fid salt now u,
      getUserByEmail db (normEmail e) = some u →
      emailOk (normEmail e) = true → p.length ≥ 6 →
      (registerPg db e p s fid salt now).1 = RegisterRes.ok (u.role.getD DEFAULT_ROLE) ∧
      ((getUserByEmail (registerPg db e p s fid salt now).2 (normEmail e)).map
        (fun v => v.passwordHash)) = some (some (argon2Hash salt p))) := by
  constructor
  · intro db e p s fid salt now
    cases h : (registerPg db e p s fid salt now).1 with
    | invalidInput => exact Or.inl rfl
    | ok r => exact Or.inr ⟨r, rfl⟩
  · intro db e p s fid salt now u hu he hp
    refine ⟨by simp [registerPg, hu, he, hp], ?_⟩
    have hstep : (registerPg db e p s fid salt now).2 = updateUser (if u.specialty ≠ some (if SPECIALTY_IDS.contains (jsTrim s) then jsTrim s else DEFAULT_SPECIALTY) then updateUser db u.id (fun x => { x with specialty := some (if SPECIALTY_IDS.contains (jsTrim s) then jsTrim s else DEFAULT_SPECIALTY) }) else db) u.id (fun x => { x with passwordHash := some (argon2Hash salt p) }) := by
      simp [registerPg, hu, he, hp]
    rw [hstep, getUserByEmail_updateUser]
    · by_cases hsp : u.specialty ≠ some (if SPECIALTY_IDS.contains (jsTrim s) then jsTrim s else DEFAULT_SPECIALTY)
      · rw [if_pos hsp, getUserByEmail_updateUser]
        · rw [hu]
          simp
        · intro w
          rfl
      · rw [if_neg hsp, hu]
        simp
    · intro w
      rfl

/-- Witness for C2's amended theorem at the concrete existing account. -/
theorem C2_register_overwrites_existing_witness :
    getUserByEmail c2Db (normEmail "doc@example.com") = some c2User ∧
    (registerPg c2Db "doc@example.com" "secret2" "x" 99 2 500).1 =
      RegisterRes.ok "doctor" :=
  ⟨by decide,
   (C2_register_overwrites_existing.2 c2Db "doc@example.com" "secret2" "x" 99 2 500
     c2User (by decide) (by decide) (by decide)).1⟩

/-! ## Claim C10 -/

/-- **C10**: `register` validates only the email and the password length — an
unknown `specialty` never causes a failure — and any request whose requested
specialty is not a known module id leaves the account (created or existing)
with the default specialty `general_physician`. -/
theorem C10_register_unknown_specialty_defaults :
    (∀ db e p s fid salt now,
      ((registerPg db e p s fid salt now).1 = RegisterRes.invalidInput ↔
        ¬ (emailOk (normEmail e) = true ∧ p.length ≥ 6))) ∧
    (∀ db e p s fid salt now,
      emailOk (normEmail e) = true → p.length ≥ 6 →
      SPECIALTY_IDS.contains (jsTrim s) = false →
      ((getUserByEmail (registerPg db e p s fid salt now).2 (normEmail e)).map
        (fun v => v.specialty)) = some (some DEFAULT_SPECIALTY)) := by
  constructor
  · intro db e p s fid salt now
    by_cases hcond : (emailOk (normEmail e) = true ∧ p.length ≥ 6)
    · cases hu : getUserByEmail db (normEmail e) with
      | none => simp [registerPg, hcond, hu]
      | some u => simp [registerPg, hcond, hu]
    · simp [registerPg, hcond]
  · intro db e p s fid salt now he hp hsp
    have hsp' : jsTrim s ∉ SPECIALTY_IDS := by simpa using hsp
    cases hu : getUserByEmail db (normEmail e) with
    | some u =>
      have hstep : (registerPg db e p s fid salt now).2 = updateUser (if u.specialty ≠ some DEFAULT_SPECIALTY then updateUser db u.id (fun x => { x with specialty := some DEFAULT_SPECIALTY }) else db) u.id (fun x => { x with passwordHash := some (argon2Hash salt p) }) := by
        simp [registerPg, hu, he, hp, hsp']
      rw [hstep, getUserByEmail_updateUser]
      · by_cases hne : u.specialty ≠ some DEFAULT_SPECIALTY
        · rw [if_pos hne, getUserByEmail_updateUser]
          · rw [hu]
            simp
          · intro w
            rfl
        · rw [if_neg hne, hu]
          simp [not_ne_iff.mp hne]
      · intro w
        rfl
    | none =>
      have hstep : (registerPg db e p s fid salt now).2 = updateUser { db with users := db.users ++ [createUserRow fid (normEmail e) DEFAULT_SPECIALTY DEFAULT_ROLE none now] } fid (fun x => { x with passwordHash := some (argon2Hash salt p) }) := by
        simp [registerPg, hu, he, hp, hsp']
      have happ : getUserByEmail { db with users := db.users ++ [createUserRow fid (normEmail e) DEFAULT_SPECIALTY DEFAULT_ROLE none now] } (normEmail e) = some (createUserRow fid (normEmail e) DEFAULT_SPECIALTY DEFAULT_ROLE none now) := by
        unfold getUserByEmail at hu ⊢
        simp only [List.find?_append, hu, Option.none_or]
        simp [createUserRow]
      rw [hstep, getUserByEmail_updateUser]
      · rw [happ]
        simp [createUserRow]
      · intro w
        rfl

/-- Witness for C10: registering a brand-new email with the unknown specialty
`astrology` succeeds and stores `general_physician`. -/
theorem C10_register_unknown_specialty_defaults_witness :
    emailOk (normEmail "new@user.org") = true ∧
    SPECIALTY_IDS.contains (jsTrim "astrology") = false ∧
    ((getUserByEmail (registerPg c3Db "new@user.org" "hunter22" "astrology" 5 9 100).2
        (normEmail "new@user.org")).map (fun v => v.specialty)) =
      some (some DEFAULT_SPECIALTY) ∧
    ¬ (registerPg c3Db "new@user.org" "hunter22" "astrology" 5 9 100).1 =
      RegisterRes.invalidInput :=
  ⟨by decide, by decide,
   C10_register_unknown_specialty_defaults.2 c3Db "new@user.org" "hunter22" "astrology"
     5 9 100 (by decide) (by decide) (by decide),
   fun habs =>
     (C10_register_unknown_specialty_defaults.1 c3Db "new@user.org" "hunter22" "astrology"
       5 9 100).mp habs ⟨by decide, by decide⟩⟩

/-! ## Claim C4 -/

/-- A row of an `insertSession` result is an old row or a fresh row whose
expiry is absolute: creation time plus the fixed TTL. -/
theorem insertSession_session_mem {db : DB} {uid : Nat} {tok : String} {now : Nat}
    {s : Session} (hs : s ∈ (insertSession db uid tok now).sessions) :
    s ∈ db.sessions ∨ s.expiresAt = s.createdAt + SESSION_TTL_S := by
  unfold insertSession at hs
  rcases List.mem_append.mp hs with h | h
  · exact Or.inl h
  · right
    have hse : s = { userId := uid, tokenHash := hashHex tok, expiresAt := now + SESSION_TTL_S, createdAt := now } := by simpa using h
    rw [hse]

/-- `register` never touches the sessions table. -/
theorem registerPg_sessions (db : DB) (e p s : String) (fid salt now : Nat) :
    (registerPg db e p s fid salt now).2.sessions = db.sessions := by
  unfold registerPg
  dsimp only
  (repeat' split) <;> rfl

/-- `start` never touches the sessions table. -/
theorem startPg_sessions (C : SecretCipher) (db : DB) (e : String) (force : Bool)
    (sec : String) (iv : List Nat) (fid now : Nat) :
    (startPg C db e force sec iv fid now).2.sessions = db.sessions := by
  unfold startPg
  dsimp only
  split
  · rfl
  · cases force <;> cases hfound : getUserByEmail db (normEmail e) <;> dsimp only <;>
      (repeat' split) <;> rfl

/-- The invite route never touches the sessions table. -/
theorem inviteHandlerPg_sessions (db : DB) (e r : String) (d fid now : Nat) :
    (inviteHandlerPg db e r d fid now).2.sessions = db.sessions := by
  unfold inviteHandlerPg
  dsimp only
  split
  · rfl
  · split <;> rfl

/-- Rows of a `login-password` result state. -/
theorem loginPasswordPg_session_mem {db : DB} {e p tok : String} {now : Nat} {s : Session}
    (hs : s ∈ (loginPasswordPg db e p tok now).2.sessions) :
    s ∈ db.sessions ∨ s.expiresAt = s.createdAt + SESSION_TTL_S := by
  unfold loginPasswordPg at hs
  dsimp only at hs
  split at hs
  · exact Or.inl hs
  · split at hs
    · exact Or.inl hs
    · split at hs
      · exact insertSession_session_mem hs
      · exact Or.inl hs

/-- Rows of a `verify-enroll` result state. -/
theorem verifyEnrollPg_session_mem {C : SecretCipher} {db : DB} {e c : String}
    {iv : List Nat} {tok : String} {em now : Nat} {s : Session}
    (hs : s ∈ (verifyEnrollPg C db e c iv tok em now).2.sessions) :
    s ∈ db.sessions ∨ s.expiresAt = s.createdAt + SESSION_TTL_S := by
  unfold verifyEnrollPg at hs
  dsimp only at hs
  split at hs
  · exact Or.inl hs
  · split at hs
    · exact Or.inl hs
    · split at hs
      · exact Or.inl hs
      · split at hs
        · exact insertSession_session_mem hs
        · exact Or.inl hs

/-- Rows of a TOTP `login` result state. -/
theorem loginTotpPg_session_mem {C : SecretCipher} {db : DB} {e c tok : String}
    {em now : Nat} {s : Session}
    (hs : s ∈ (loginTotpPg C db e c tok em now).2.sessions) :
    s ∈ db.sessions ∨ s.expiresAt = s.createdAt + SESSION_TTL_S := by
  unfold loginTotpPg at hs
  dsimp only at hs
  split at hs
  · exact Or.inl hs
  · split at hs
    · exact Or.inl hs
    · split at hs
      · exact Or.inl hs
      · split at hs
        · exact Or.inl hs
        · split at hs
          · exact insertSession_session_mem hs
          · exact Or.inl hs

/-- **C4 counterexample** (to the strict-inequality reading): at the exact
expiry instant (`expires_at = now`) the server still accepts the session —
the guard is `session.expires_at < nowS()` (line 882) — while the claim calls
for validity only when expiry is *strictly greater* than the current time. -/
theorem C4_counterexample :
    withAuthUser c4Db (some "boundary-token") 1000000 = some c4User ∧
    (∀ s ∈ c4Db.sessions, ¬ (1000000 < s.expiresAt)) :=
  ⟨by decide, by decide⟩

/-- **C4 amended**: presenting a token resolves a user iff a session row with
`token_hash = sha256(token)` exists and its expiry is `≥ now` (the instant
`expiresAt = now` is still valid); a fresh row's expiry is always its
creation time plus the fixed 7-day TTL; after logout deletes the row, the
same token never validates again; and no auth operation ever rewrites an
existing session row — rows are only inserted fresh or deleted. -/
theorem C4_session_validity :
    (∀ db token now, ((db.sessions.map (fun s => s.tokenHash)).Nodup) →
      (∀ s ∈ db.sessions, (getUserById db s.userId).isSome) →
      ((withAuthUser db (some token) now).isSome ↔
        ∃ s ∈ db.sessions, s.tokenHash = hashHex token ∧ now ≤ s.expiresAt)) ∧
    (∀ db uid token now s, s ∈ (insertSession db uid token now).sessions →
      s ∈ db.sessions ∨
      (s.tokenHash = hashHex token ∧ s.expiresAt = s.createdAt + SESSION_TTL_S)) ∧
    (∀ db token now', withAuthUser (logout db (some token)) (some token) now' = none) ∧
    (∀ (C : SecretCipher) db db', AuthStep C db db' → ∀ s ∈ db'.sessions,
      s ∈ db.sessions ∨ s.expiresAt = s.createdAt + SESSION_TTL_S) := by
  refine ⟨?_, ?_, ?_, ?_⟩
  · intro db token now hnd hfk
    unfold withAuthUser
    dsimp only
    constructor
    · intro h
      rcases hf : db.sessions.find? (fun s => s.tokenHash == hashHex token) with _ | s
      · rw [hf] at h
        simp at h
      · rw [hf] at h
        dsimp only at h
        by_cases hex : s.expiresAt < now
        · rw [if_pos hex] at h
          simp at h
        · refine ⟨s, List.mem_of_find?_eq_some hf, ?_, Nat.le_of_not_lt hex⟩
          simpa using List.find?_some hf
    · rintro ⟨s, hmem, hhash, hle⟩
      have hsome : (db.sessions.find? (fun x => x.tokenHash == hashHex token)).isSome :=
        List.find?_isSome.mpr ⟨s, hmem, by simp [hhash]⟩
      obtain ⟨s', hf⟩ := Option.isSome_iff_exists.mp hsome
      have hmem' := List.mem_of_find?_eq_some hf
      have hph : s'.tokenHash = hashHex token := by simpa using List.find?_some hf
      have heq : s' = s := List.inj_on_of_nodup_map hnd hmem' hmem (by rw [hph, hhash])
      rw [hf]
      dsimp only
      rw [if_neg (by rw [heq]; exact Nat.not_lt.mpr hle)]
      exact hfk s' hmem'
  · intro db uid token now s hs
    unfold insertSession at hs
    rcases List.mem_append.mp hs with h | h
    · exact Or.inl h
    · right
      have hse : s = { userId := uid, tokenHash := hashHex token, expiresAt := now + SESSION_TTL_S, createdAt := now } := by simpa using h
      rw [hse]
      exact ⟨rfl, rfl⟩
  · intro db token now'
    unfold withAuthUser logout
    dsimp only
    have hnone : (db.sessions.filter
        (fun s => !(s.tokenHash == hashHex token))).find?
        (fun s => s.tokenHash == hashHex token) = none := by
      apply List.find?_eq_none.mpr
      intro x hx
      have hkeep := (List.mem_filter.mp hx).2
      intro habs
      rw [habs] at hkeep
      exact absurd hkeep (by decide)
    rw [hnone]
  · intro C db db' hstep s hs
    cases hstep with
    | register e p sp fid salt now hf =>
      rw [registerPg_sessions] at hs
      exact Or.inl hs
    | loginPw e p tok now =>
      exact loginPasswordPg_session_mem hs
    | start e force sec iv fid now hf =>
      rw [startPg_sessions] at hs
      exact Or.inl hs
    | verifyEnroll e c tok iv em now =>
      exact verifyEnrollPg_session_mem hs
    | loginTotp e c tok em now =>
      exact loginTotpPg_session_mem hs
    | logoutStep ck =>
      cases ck with
      | none => exact Or.inl hs
      | some tok => exact Or.inl (List.mem_filter.mp hs).1
    | inviteStep e r d fid now hf =>
      rw [inviteHandlerPg_sessions] at hs
      exact Or.inl hs
    | resetStep e fid now hf =>
      unfold resetUserPg at hs
      dsimp only at hs
      have h1 := (List.mem_filter.mp hs).1
      revert h1
      cases getUserByEmail db (normEmail e) <;> intro h1 <;> exact Or.inl h1

/-- Witness for C4: validation at the boundary state, a logout, and an
insert, all at concrete inputs. -/
theorem C4_session_validity_witness :
    ((c4Db.sessions.map (fun s => s.tokenHash)).Nodup ∧
      (∀ s ∈ c4Db.sessions, (getUserById c4Db s.userId).isSome)) ∧
    ((withAuthUser c4Db (some "boundary-token") 1000000).isSome ↔
      ∃ s ∈ c4Db.sessions, s.tokenHash = hashHex "boundary-token" ∧
        1000000 ≤ s.expiresAt) ∧
    withAuthUser (logout c4Db (some "boundary-token")) (some "boundary-token") 999 = none :=
  ⟨⟨by decide, by decide⟩,
   C4_session_validity.1 c4Db "boundary-token" 1000000 (by decide) (by decide),
   C4_session_validity.2.2.1 c4Db "boundary-token" 999⟩

/-! ## Claim C7 -/

/-- Decoding inverts encoding on each 6-bit value. -/
theorem b64Val_b64Char_fin : ∀ i : Fin 64, b64Val (b64Char i.val) = some i.val ∧
    b64Char i.val ≠ '=' := by decide

/-- Decoding inverts encoding on 6-bit values. -/
theorem b64Val_b64Char (n : Nat) (h : n < 64) : b64Val (b64Char n) = some n :=
  (b64Val_b64Char_fin ⟨n, h⟩).1

/-- Base64 alphabet characters are never the padding character. -/
theorem b64Char_ne_pad (n : Nat) (h : n < 64) : b64Char n ≠ '=' :=
  (b64Val_b64Char_fin ⟨n, h⟩).2

/-- Base64 decode is a left inverse of encode on byte lists. -/
theorem b64_roundtrip : ∀ (l : List Nat), bytesOk l → b64Decode (b64Encode l) = some l
  | [], _ => rfl
  | [a], h => by
    have ha : a < 256 := h a (by simp)
    show b64Decode (b64Char (a / 4) :: b64Char (a % 4 * 16) :: '=' :: '=' :: []) = some [a]
    rw [b64Decode]
    rw [if_pos ⟨rfl, rfl, rfl⟩]
    rw [b64Val_b64Char _ (by omega), b64Val_b64Char _ (by omega)]
    show some [a / 4 * 4 + a % 4 * 16 / 16] = some [a]
    congr 2
    omega
  | [a, b], h => by
    have ha : a < 256 := h a (by simp)
    have hb : b < 256 := h b (by simp)
    show b64Decode (b64Char (a / 4) :: b64Char (a % 4 * 16 + b / 16) ::
      b64Char (b % 16 * 4) :: '=' :: []) = some [a, b]
    rw [b64Decode]
    rw [if_neg (fun hc => b64Char_ne_pad (b % 16 * 4) (by omega) hc.2.1)]
    rw [if_pos ⟨rfl, rfl⟩]
    rw [b64Val_b64Char _ (by omega), b64Val_b64Char _ (by omega),
      b64Val_b64Char _ (by omega)]
    show some [a / 4 * 4 + (a % 4 * 16 + b / 16) / 16,
      (a % 4 * 16 + b / 16) % 16 * 16 + b % 16 * 4 / 4] = some [a, b]
    congr 3
    · omega
    · omega
  | a :: b :: c :: rest, h => by
    have ha : a < 256 := h a (by simp)
    have hb : b < 256 := h b (by simp)
    have hc : c < 256 := h c (by simp)
    have ih := b64_roundtrip rest (fun x hx => h x (by simp [hx]))
    show b64Decode (b64Char (a / 4) :: b64Char (a % 4 * 16 + b / 16) ::
      b64Char (b % 16 * 4 + c / 64) :: b64Char (c % 64) :: b64Encode rest) =
      some (a :: b :: c :: rest)
    rw [b64Decode]
    rw [if_neg (fun hx => b64Char_ne_pad (b % 16 * 4 + c / 64) (by omega) hx.2.1)]
    rw [if_neg (fun hx => b64Char_ne_pad (c % 64) (by omega) hx.2)]
    rw [b64Val_b64Char _ (by omega), b64Val_b64Char _ (by omega),
      b64Val_b64Char _ (by omega), b64Val_b64Char _ (by omega)]
    simp only [Option.bind_eq_bind, Option.some_bind, ih]
    show some ((a / 4 * 4 + (a % 4 * 16 + b / 16) / 16) ::
      ((a % 4 * 16 + b / 16) % 16 * 16 + (b % 16 * 4 + c / 64) / 4) ::
      ((b % 16 * 4 + c / 64) % 4 * 64 + c % 64) :: rest) =
      some (a :: b :: c :: rest)
    congr 4
    · omega
    · omega
    · omega

/-- `toyMac` depends only on the payload's bytes mod 256. -/
theorem toyMac_mod (iv m : List Nat) : toyMac iv m = toyMac iv (m.map (· % 256)) := by
  unfold toyMac
  congr 1
  rw [List.foldl_append, List.foldl_append]
  generalize List.foldl _ 1 iv = a
  simp only [List.foldl_cons]
  generalize (a * 257 + 255 % 256 + 1) % 2 ^ 128 = b
  induction m generalizing b with
  | nil => rfl
  | cons x xs ih =>
    simp only [List.map_cons, List.foldl_cons, Nat.mod_mod_of_dvd x (dvd_refl 256)]
    exact ih _

/-- The concrete instance has perfect integrity: a triple not produced by
`toySeal` never opens. -/
theorem toyAEAD_integrity : AEADIntegrity toyAEAD := by
  intro iv tag ct hno
  show toyUnseal iv tag ct = none
  unfold toyUnseal
  by_cases hall : ct.all (fun b => b < 256) = true
  · by_cases hmac : toyMac iv ct = tag
    · exfalso
      apply hno ct
      have hlt : ∀ x ∈ ct, x % 256 = x := fun x hx =>
        Nat.mod_eq_of_lt (by simpa using List.all_eq_true.mp hall x hx)
      have h1 : ct.map (· % 256) = ct := by
        rw [List.map_congr_left hlt]
        exact List.map_id ct
      show (ct.map (· % 256), toyMac iv ct) = (ct, tag)
      rw [h1, hmac]
    · simp [hmac]
  · simp [hall]

/-- A triple whose checksum does not match is not sealable by the concrete
instance (used to discharge the integrity hypothesis at concrete inputs). -/
theorem toy_not_sealable (iv tag ct : List Nat)
    (hmac : toyMac iv (ct.map (· % 256)) ≠ tag) :
    ∀ m2, toyAEAD.sealB iv m2 ≠ (ct, tag) := by
  intro m2 hEq
  have h1 : m2.map (· % 256) = ct := congrArg Prod.fst hEq
  have h2 : toyMac iv m2 = tag := congrArg Prod.snd hEq
  apply hmac
  rw [← h1, List.map_map]
  have hmm : ((fun x => x % 256) ∘ fun x => x % 256) = (fun x : Nat => x % 256) := by
    funext x
    exact Nat.mod_mod_of_dvd x (dvd_refl 256)
  rw [hmm, ← toyMac_mod]
  exact h2

/-- The blob layout and parsing offsets are inverse: `decrypt(encrypt(m))`
recovers `m` at the byte level for any cipher meeting the AEAD contract. -/
theorem decryptBytes_encryptBytes (A : AEADModel) (iv m : List Nat)
    (hiv : iv.length = IV_LEN) (hm : bytesOk m) :
    decryptBytes A (encryptBytes A iv m) = some m := by
  have hiv12 : iv.length = 12 := hiv
  have htag := A.tag_len iv m
  unfold encryptBytes decryptBytes IV_LEN
  rw [List.append_assoc]
  have h2 : (iv ++ ((A.sealB iv m).2 ++ (A.sealB iv m).1)).drop 12 =
      (A.sealB iv m).2 ++ (A.sealB iv m).1 := by
    rw [← hiv12]
    exact List.drop_left _ _
  have h1 : (iv ++ ((A.sealB iv m).2 ++ (A.sealB iv m).1)).take 12 = iv := by
    rw [← hiv12]
    exact List.take_left _ _
  have h3 : ((A.sealB iv m).2 ++ (A.sealB iv m).1).take 16 = (A.sealB iv m).2 := by
    rw [← htag]
    exact List.take_left _ _
  have h4 : (iv ++ ((A.sealB iv m).2 ++ (A.sealB iv m).1)).drop 28 = (A.sealB iv m).1 := by
    have h28 : (28 : Nat) = 12 + 16 := rfl
    rw [h28, ← List.drop_drop, h2, ← htag]
    exact List.drop_left _ _
  rw [h1, h2, h3, h4]
  exact A.open_sealB iv m hm

/-- Flipping any bit inside the blob changes the blob. -/
theorem flipBit_ne (b : List Nat) (i : Nat) (hi : i < 8 * b.length) :
    flipBit i b ≠ b := by
  intro hEq
  have hj : i / 8 < b.length := by omega
  unfold flipBit at hEq
  have h1 : (b.set (i / 8) (b.getD (i / 8) 0 ^^^ 2 ^ (i % 8)))[i / 8]? =
      some (b.getD (i / 8) 0 ^^^ 2 ^ (i % 8)) :=
    List.getElem?_set_eq_of_lt _ hj
  rw [hEq, List.getElem?_eq_getElem hj] at h1
  have h2 : b.get ⟨i / 8, hj⟩ = b.getD (i / 8) 0 ^^^ 2 ^ (i % 8) := by simpa using h1
  rw [List.getD_eq_getElem b 0 hj] at h2
  have h3 : (2 : Nat) ^ (i % 8) = 0 := by
    have h4 := congrArg (fun t => b.get ⟨i / 8, hj⟩ ^^^ t) h2
    simpa [← Nat.xor_assoc] using h4.symm
  simp [Nat.pow_eq_zero] at h3

/-- **C7** (spec-modelled crypto core): with AES-256-GCM modelled as an AEAD
(`AEADModel`, integrity as `AEADIntegrity`), the server's `encrypt`/`decrypt`
pair — 12-byte fresh iv, 16-byte tag, blob `iv ‖ tag ‖ ciphertext`, base64
transport, parse offsets 0/12/28 — satisfies the claim: every plaintext
round-trips, and a blob with any single bit flipped parses to a triple that
differs from the sealed one, so the authentication check rejects it
(`decrypt` raises instead of returning a plaintext). -/
theorem C7_cipher_roundtrip_and_bitflip :
    (∀ (A : AEADModel) (iv m : List Nat), iv.length = IV_LEN → bytesOk m →
      decryptBytes A (encryptBytes A iv m) = some m) ∧
    (∀ (A : AEADModel) (iv : List Nat) (P : String), iv.length = IV_LEN → bytesOk iv →
      (∀ ch ∈ P.toList, ch.toNat < 256) →
      decryptStr A (encryptStr A iv P) = some P) ∧
    (∀ (A : AEADModel) (iv m : List Nat) (i : Nat), iv.length = IV_LEN →
      i < 8 * (encryptBytes A iv m).length →
      (flipBit i (encryptBytes A iv m) ≠ encryptBytes A iv m) ∧
      (AEADIntegrity A →
       (∀ m2, A.sealB ((flipBit i (encryptBytes A iv m)).take IV_LEN) m2 ≠
         ((flipBit i (encryptBytes A iv m)).drop 28,
          ((flipBit i (encryptBytes A iv m)).drop IV_LEN).take 16)) →
       decryptBytes A (flipBit i (encryptBytes A iv m)) = none)) := by
  refine ⟨decryptBytes_encryptBytes, ?_, ?_⟩
  · intro A iv P hiv hivb hP
    have hmb : bytesOk (strBytes P) := by
      intro b hb
      obtain ⟨ch, hch, hbe⟩ := List.mem_map.mp hb
      rw [← hbe]
      exact hP ch hch
    have hbytes : bytesOk (encryptBytes A iv (strBytes P)) := by
      intro b hb
      unfold encryptBytes at hb
      rcases List.mem_append.mp hb with h | h
      · rcases List.mem_append.mp h with h' | h'
        · exact hivb b h'
        · exact A.tag_bytes iv _ b h'
      · exact A.ct_bytes iv _ b h
    unfold encryptStr decryptStr
    rw [show (String.mk (b64Encode (encryptBytes A iv (strBytes P)))).toList =
      b64Encode (encryptBytes A iv (strBytes P)) from rfl]
    rw [b64_roundtrip _ hbytes]
    dsimp only
    rw [decryptBytes_encryptBytes A iv _ hiv hmb]
    dsimp only
    have hmap : (strBytes P).map Char.ofNat = P.toList := by
      unfold strBytes
      rw [List.map_map]
      have hco : ∀ c ∈ P.toList, (Char.ofNat ∘ Char.toNat) c = id c := fun c _ =>
        Char.ofNat_toNat c
      rw [List.map_congr_left hco]
      exact List.map_id _
    rw [hmap]
    rfl
  · intro A iv m i hiv hi
    constructor
    · exact flipBit_ne _ i hi
    · intro hint hno
      exact hint _ _ _ hno

set_option maxHeartbeats 4000000 in
/-- Witness for C7: the concrete instance round-trips an ASCII secret, and
flipping bit 224 (the low bit of the first ciphertext byte) of a concrete
blob both changes the blob and makes decryption fail. -/
theorem C7_cipher_roundtrip_and_bitflip_witness :
    wIv.length = IV_LEN ∧
    decryptStr toyAEAD (encryptStr toyAEAD wIv "totp-secret") = some "totp-secret" ∧
    flipBit 224 (encryptBytes toyAEAD wIv [1, 2, 3]) ≠ encryptBytes toyAEAD wIv [1, 2, 3] ∧
    decryptBytes toyAEAD (flipBit 224 (encryptBytes toyAEAD wIv [1, 2, 3])) = none := by
  refine ⟨by decide, ?_, ?_, ?_⟩
  · exact C7_cipher_roundtrip_and_bitflip.2.1 toyAEAD wIv "totp-secret"
      (by decide) (by decide) (by decide)
  · exact (C7_cipher_roundtrip_and_bitflip.2.2 toyAEAD wIv [1, 2, 3] 224
      (by decide) (by decide)).1
  · exact (C7_cipher_roundtrip_and_bitflip.2.2 toyAEAD wIv [1, 2, 3] 224
      (by decide) (by decide)).2 toyAEAD_integrity
      (toy_not_sealable _ _ _ (by decide))

/-! ## Claim C8 -/

/-- `update ... where id=...` with an id-preserving row function keeps the id
column unchanged. -/
theorem updateUser_ids (db : DB) (id : Nat) (f : User → User)
    (hfid : ∀ u, (f u).id = u.id) :
    (updateUser db id f).users.map (fun u => u.id) = db.users.map (fun u => u.id) := by
  unfold updateUser
  simp only [List.map_map]
  apply List.map_congr_left
  intro u _
  by_cases h : u.id = id
  · simp [Function.comp, h, hfid]
  · simp [Function.comp, h]

/-- Store invariant preservation for a row update: it suffices that the row
function preserves ids and sends every possibly-targeted row to an
invariant-satisfying row. -/
theorem DBInv_updateUser_cond (db : DB) (id : Nat) (f : User → User)
    (hfid : ∀ u, (f u).id = u.id) (hinv : DBInv db)
    (hcond : ∀ u ∈ db.users, u.id = id → TotpInv (f u)) :
    DBInv (updateUser db id f) := by
  obtain ⟨hnd, hall⟩ := hinv
  constructor
  · rw [updateUser_ids db id f hfid]
    exact hnd
  · intro v hv
    obtain ⟨u, hu, he⟩ := mem_updateUser hv
    by_cases h : u.id = id
    · rw [he, if_pos h]
      exact hcond u hu h
    · rw [he, if_neg h]
      exact hall u hu

/-- Store invariant preservation for inserting a fresh row. -/
theorem DBInv_append (db : DB) (row : User) (hrow : TotpInv row)
    (hid : row.id ∉ db.users.map (fun u => u.id)) (hinv : DBInv db) :
    DBInv { db with users := db.users ++ [row] } := by
  obtain ⟨hnd, hall⟩ := hinv
  constructor
  · show ((db.users ++ [row]).map (fun u => u.id)).Nodup
    rw [List.map_append]
    simp only [List.map_cons, List.map_nil, List.nodup_append]
    refine ⟨hnd, List.nodup_singleton _, ?_⟩
    intro x hx
    simp only [List.mem_singleton]
    intro hxe
    exact hid (hxe ▸ hx)
  · intro v hv
    rcases List.mem_append.mp hv with h | h
    · exact hall v h
    · rw [List.mem_singleton.mp h]
      exact hrow

/-- The invariant only concerns the users table. -/
theorem DBInv_sessions (db : DB) (ss : List Session) (hinv : DBInv db) :
    DBInv { db with sessions := ss } := hinv

/-- In an id-targeted update, every row that still carries the targeted id is
an image of the row function. -/
theorem mem_updateUser_target {db : DB} {id : Nat} {f : User → User} {v : User}
    (hv : v ∈ (updateUser db id f).users) (hvid : v.id = id)
    (hfid : ∀ u, (f u).id = u.id) :
    ∃ u ∈ db.users, u.id = id ∧ v = f u := by
  obtain ⟨u, hu, he⟩ := mem_updateUser hv
  by_cases h : u.id = id
  · exact ⟨u, hu, h, by rw [he, if_pos h]⟩
  · exfalso
    rw [he, if_neg h] at hvid
    exact h hvid

/-- Distinct rows cannot share an id in a well-formed store. -/
theorem user_unique {db : DB} (hnd : (db.users.map (fun u => u.id)).Nodup) {u v : User}
    (hu : u ∈ db.users) (hv : v ∈ db.users) (hid : u.id = v.id) : u = v :=
  List.inj_on_of_nodup_map hnd hu hv hid

/-- Store invariant preservation for a row update whose row function
preserves the invariant pointwise. -/
theorem DBInv_updateUser_pres (db : DB) (id : Nat) (f : User → User)
    (hfid : ∀ u, (f u).id = u.id) (hpres : ∀ u, TotpInv u → TotpInv (f u))
    (hinv : DBInv db) : DBInv (updateUser db id f) :=
  DBInv_updateUser_cond db id f hfid hinv (fun u hu _ => hpres u (hinv.2 u hu))

/-- `register` preserves the store invariant. -/
theorem DBInv_registerPg (db : DB) (e p s : String) (fid salt now : Nat)
    (hf : fid ∉ db.users.map (fun u => u.id)) (hinv : DBInv db) :
    DBInv (registerPg db e p s fid salt now).2 := by
  unfold registerPg
  dsimp only
  split
  · exact hinv
  · split
    · exact DBInv_updateUser_pres _ _ _ (fun u => rfl) (fun u h => h)
        (DBInv_append db _ (fun hen => rfl) hf hinv)
    · refine DBInv_updateUser_pres _ _ _ (fun u => rfl) (fun u h => h) ?_
      split <;> (try split) <;>
        first
          | exact DBInv_updateUser_pres _ _ _ (fun u => rfl) (fun u h => h) hinv
          | exact hinv

/-- `login-password` preserves the store invariant. -/
theorem DBInv_loginPasswordPg (db : DB) (e p tok : String) (now : Nat)
    (hinv : DBInv db) : DBInv (loginPasswordPg db e p tok now).2 := by
  unfold loginPasswordPg
  dsimp only
  split
  · exact hinv
  · split
    · exact hinv
    · split
      · exact DBInv_sessions db _ hinv
      · exact hinv

/-- `verify-enroll` preserves the store invariant: its only user writes are
the self-healing temp clear and the one-shot promotion, both of which land in
invariant-satisfying rows. -/
theorem DBInv_verifyEnrollPg (C : SecretCipher) (db : DB) (e c : String)
    (iv : List Nat) (tok : String) (em now : Nat) (hinv : DBInv db) :
    DBInv (verifyEnrollPg C db e c iv tok em now).2 := by
  unfold verifyEnrollPg
  dsimp only
  split
  · exact hinv
  · split
    · exact hinv
    · split
      · exact DBInv_updateUser_pres _ _ _ (fun u => rfl) (fun u h hen => rfl) hinv
      · split
        · exact DBInv_sessions _ _
            (DBInv_updateUser_pres _ _ _ (fun u => rfl) (fun u h hen => rfl) hinv)
        · exact hinv

/-- The TOTP `login` preserves the store invariant. -/
theorem DBInv_loginTotpPg (C : SecretCipher) (db : DB) (e c tok : String)
    (em now : Nat) (hinv : DBInv db) : DBInv (loginTotpPg C db e c tok em now).2 := by
  unfold loginTotpPg
  dsimp only
  split
  · exact hinv
  · split
    · exact hinv
    · split
      · exact hinv
      · split
        · exact hinv
        · split
          · exact DBInv_sessions db _ hinv
          · exact hinv

/-- Logout preserves the store invariant. -/
theorem DBInv_logout (db : DB) (ck : Option String) (hinv : DBInv db) :
    DBInv (logout db ck) := by
  unfold logout
  cases ck with
  | none => exact hinv
  | some tok => exact DBInv_sessions db _ hinv

/-- The invite route preserves the store invariant. -/
theorem DBInv_inviteHandlerPg (db : DB) (e r : String) (d fid now : Nat)
    (hf : fid ∉ db.users.map (fun u => u.id)) (hinv : DBInv db) :
    DBInv (inviteHandlerPg db e r d fid now).2 := by
  unfold inviteHandlerPg
  dsimp only
  split
  · exact hinv
  · split
    · exact DBInv_updateUser_pres _ _ _ (fun u => rfl) (fun u h => h) hinv
    · exact DBInv_append db _ (fun hen => rfl) hf hinv

/-- The debug reset preserves the store invariant. -/
theorem DBInv_resetUserPg (db : DB) (e : String) (fid now : Nat)
    (hf : fid ∉ db.users.map (fun u => u.id)) (hinv : DBInv db) :
    DBInv (resetUserPg db e fid now) := by
  unfold resetUserPg
  dsimp only
  apply DBInv_sessions
  cases hfound : getUserByEmail db (normEmail e) with
  | some u =>
    exact DBInv_updateUser_pres _ _ _ (fun w => rfl) (fun w h hen => rfl) hinv
  | none =>
    exact DBInv_updateUser_pres _ _ _ (fun w => rfl) (fun w h hen => rfl)
      (DBInv_append db _ (fun hen => rfl) hf hinv)

/-- `start` preserves the store invariant: a temp secret is only ever written
into a row whose `totp_enabled` is false (the enrolled-and-not-forcing case
returned early, and a forced restart clears the flag first). -/
theorem DBInv_startPg (C : SecretCipher) (db : DB) (e : String) (force : Bool)
    (sec : String) (iv : List Nat) (fid now : Nat)
    (hf : fid ∉ db.users.map (fun u => u.id)) (hinv : DBInv db) :
    DBInv (startPg C db e force sec iv fid now).2 := by
  unfold startPg
  dsimp only
  split
  · exact hinv
  · cases hfound : getUserByEmail db (normEmail e) with
    | none =>
      have hinv0 : DBInv { db with users := db.users ++ [createUserRow fid (normEmail e) DEFAULT_SPECIALTY DEFAULT_ROLE none now] } :=
        DBInv_append db _ (fun hen => rfl) hf hinv
      cases force with
      | true =>
        simp only [createUserRow, Option.getD_none, Option.getD_some, eq_self_iff_true,
          if_true, not_true, and_false, if_false, Bool.false_eq_true, not_false_iff, and_true]
        refine DBInv_updateUser_cond _ _ _ (fun u => rfl) ?_ ?_
        · exact DBInv_updateUser_pres _ _ _ (fun u => rfl) (fun u h hen => rfl) hinv0
        · intro u hu hid hen
          obtain ⟨w, hw, hwid, hwe⟩ := mem_updateUser_target hu hid (fun x => rfl)
          rw [hwe] at hen
          exact absurd hen (by simp)
      | false =>
        simp only [createUserRow, Option.getD_none, Option.getD_some, eq_self_iff_true,
          if_true, not_true, and_false, if_false, Bool.false_eq_true, not_false_iff, and_true]
        refine DBInv_updateUser_cond _ _ _ (fun u => rfl) hinv0 ?_
        intro u hu hid hen
        rcases List.mem_append.mp hu with h | h
        · exfalso
          apply hf
          rw [← hid]
          exact List.mem_map.mpr ⟨u, h, rfl⟩
        · rw [List.mem_singleton.mp h] at hen
          exact absurd hen (by simp [createUserRow])
    | some user =>
      have hmem : user ∈ db.users := by
        unfold getUserByEmail at hfound
        exact List.mem_of_find?_eq_some hfound
      cases force with
      | true =>
        simp only [Option.getD_some, eq_self_iff_true, if_true, not_true, and_false, if_false]
        refine DBInv_updateUser_cond _ _ _ (fun u => rfl) ?_ ?_
        · exact DBInv_updateUser_pres _ _ _ (fun u => rfl) (fun u h hen => rfl) hinv
        · intro u hu hid hen
          obtain ⟨w, hw, hwid, hwe⟩ := mem_updateUser_target hu hid (fun x => rfl)
          rw [hwe] at hen
          exact absurd hen (by simp)
      | false =>
        simp only [Option.getD_some, Bool.false_eq_true, not_false_iff, and_true, if_false]
        split
        · exact hinv
        · next hguard =>
          have henb : user.totpEnabled = false := by
            cases hcon : user.totpEnabled with
            | false => rfl
            | true => exact absurd hcon hguard
          split
          · split
            · exact hinv
            · refine DBInv_updateUser_cond _ _ _ (fun u => rfl) ?_ ?_
              · exact DBInv_updateUser_pres _ _ _ (fun u => rfl) (fun u h hen => rfl) hinv
              · intro u hu hid hen
                obtain ⟨w, hw, hwid, hwe⟩ := mem_updateUser_target hu hid (fun x => rfl)
                have hweq : w = user := user_unique hinv.1 hw hmem hwid
                rw [hwe, hweq] at hen
                exact absurd hen (by simp [henb])
          · refine DBInv_updateUser_cond _ _ _ (fun u => rfl) hinv ?_
            intro u hu hid hen
            have hueq : u = user := user_unique hinv.1 hu hmem hid
            rw [hueq] at hen
            exact absurd hen (by simp [henb])

/-- Every auth-route step preserves the store invariant. -/
theorem DBInv_step {C : SecretCipher} {db db' : DB} (hinv : DBInv db)
    (h : AuthStep C db db') : DBInv db' := by
  cases h with
  | register e p sp fid salt now hf => exact DBInv_registerPg db e p sp fid salt now hf hinv
  | loginPw e p tok now => exact DBInv_loginPasswordPg db e p tok now hinv
  | start e force sec iv fid now hf => exact DBInv_startPg C db e force sec iv fid now hf hinv
  | verifyEnroll e c tok iv em now => exact DBInv_verifyEnrollPg C db e c iv tok em now hinv
  | loginTotp e c tok em now => exact DBInv_loginTotpPg C db e c tok em now hinv
  | logoutStep ck => exact DBInv_logout db ck hinv
  | inviteStep e r d fid now hf => exact DBInv_inviteHandlerPg db e r d fid now hf hinv
  | resetStep e fid now hf => exact DBInv_resetUserPg db e fid now hf hinv

/-- The store invariant holds along every reachable execution. -/
theorem DBInv_reachable {C : SecretCipher} {db db' : DB} (hinv : DBInv db)
    (h : Reachable C db db') : DBInv db' := by
  induction h with
  | refl => exact hinv
  | tail h1 h2 ih => exact DBInv_step ih h2

/-- Sessions inserts do not change email lookups. -/
theorem getUserByEmail_insertSession (db : DB) (uid : Nat) (tok : String) (now : Nat)
    (e : String) : getUserByEmail (insertSession db uid tok now) e = getUserByEmail db e := rfl

/-- **C8**: from any well-formed store, every auth operation (register,
login-password, start, verify-enroll, TOTP login, logout, invite, debug
reset) preserves the invariant that an enabled user has no pending temp
secret — so no reachable user state has `totpEnabled = true` together with a
temp secret. `verify-enroll`'s success path leaves the user with
`totpEnabled = true`, the re-encrypted permanent secret, and a cleared temp
slot — all written by the single `update` of the embedding — and its
`invalid_code` failure path leaves the store completely unchanged. -/
theorem C8_totp_invariant_and_atomic_promotion :
    (∀ (C : SecretCipher) (db db' : DB), DBInv db → Reachable C db db' →
      ∀ u ∈ db'.users, u.totpEnabled = true → u.totpTempSecretEncrypted = none) ∧
    (∀ (C : SecretCipher) (db : DB) (e c : String) (iv : List Nat) (tok : String)
      (em now : Nat) (user : User) (blob secret : String),
      getUserByEmail db (normEmail e) = some user →
      user.totpTempSecretEncrypted = some blob → C.dec blob = some secret →
      ((verifyEnrollPg C db e c iv tok em now).1 = TotpRes.ok (user.role.getD DEFAULT_ROLE) →
        (getUserByEmail (verifyEnrollPg C db e c iv tok em now).2 (normEmail e)).map
          (fun v => (v.totpEnabled, v.totpSecretEncrypted, v.totpTempSecretEncrypted)) =
          some (true, some (C.enc iv secret), none))) ∧
    (∀ (C : SecretCipher) (db : DB) (e c : String) (iv : List Nat) (tok : String)
      (em now : Nat),
      (verifyEnrollPg C db e c iv tok em now).1 = TotpRes.invalidCode →
      (verifyEnrollPg C db e c iv tok em now).2 = db) := by
  refine ⟨?_, ?_, ?_⟩
  · intro C db db' hinv hreach u hu hen
    exact (DBInv_reachable hinv hreach).2 u hu hen
  · intro C db e c iv tok em now user blob secret hu ht hd hok
    cases hv : authenticatorVerify { token := stripNonDigits c, secret := secret, window := 2 } em with
    | false => simp [verifyEnrollPg, hu, ht, hd, hv] at hok
    | true =>
      have hstate : (verifyEnrollPg C db e c iv tok em now).2 = insertSession (updateUser db user.id (fun x => { x with totpEnabled := true, totpSecretEncrypted := some (C.enc iv secret), totpTempSecretEncrypted := none })) user.id tok now := by
        simp [verifyEnrollPg, hu, ht, hd, hv]
      rw [hstate, getUserByEmail_insertSession, getUserByEmail_updateUser]
      · rw [hu]
        simp
      · intro w
        rfl
  · intro C db e c iv tok em now h
    cases hu' : getUserByEmail db (normEmail e) with
    | none => simp [verifyEnrollPg, hu'] at h
    | some user =>
      cases ht' : user.totpTempSecretEncrypted with
      | none => simp [verifyEnrollPg, hu', ht'] at h
      | some blob =>
        cases hd' : C.dec blob with
        | none => simp [verifyEnrollPg, hu', ht', hd'] at h
        | some secret =>
          cases hv : authenticatorVerify { token := stripNonDigits c, secret := secret, window := 2 } em with
          | true => simp [verifyEnrollPg, hu', ht', hd', hv] at h
          | false => simp [verifyEnrollPg, hu', ht', hd', hv]

set_option maxHeartbeats 4000000 in
/-- Witness for C8: the concrete pending user; a wrong code changes nothing,
the current step's code promotes the secret atomically, and the invariant
holds at the (trivially reachable) store. -/
theorem C8_totp_invariant_and_atomic_promotion_witness :
    DBInv wDbPending ∧
    (∀ u ∈ wDbPending.users, u.totpEnabled = true → u.totpTempSecretEncrypted = none) ∧
    ((getUserByEmail (verifyEnrollPg (pipeCipher toyAEAD) wDbPending "alice@example.com"
        "287082" wIv "tok" 59000 59).2 (normEmail "alice@example.com")).map
        (fun v => (v.totpEnabled, v.totpSecretEncrypted, v.totpTempSecretEncrypted)) =
      some (true, some ((pipeCipher toyAEAD).enc wIv wSecret), none)) ∧
    (verifyEnrollPg (pipeCipher toyAEAD) wDbPending "alice@example.com" "999999"
      wIv "tok" 59000 59).2 = wDbPending := by
  refine ⟨by decide, ?_, ?_, ?_⟩
  · exact C8_totp_invariant_and_atomic_promotion.1 (pipeCipher toyAEAD) wDbPending
      wDbPending (by decide) Relation.ReflTransGen.refl
  · exact C8_totp_invariant_and_atomic_promotion.2.1 (pipeCipher toyAEAD) wDbPending
      "alice@example.com" "287082" wIv "tok" 59000 59 wUserPending wBlob wSecret
      (by decide) rfl (by decide) verifyEnroll_w_ok
  · exact C8_totp_invariant_and_atomic_promotion.2.2 (pipeCipher toyAEAD) wDbPending
      "alice@example.com" "999999" wIv "tok" 59000 59 verifyEnroll_w_bad
